import Mathlib

/-!
Verification of the portfolio metadata model and its query/derivation layer.

The embedding covers:
* the `photos` table schema (`src/db/schema.sql`): row type, CHECK / UNIQUE
  constraints;
* the read-side query layer (`src/utils/db.ts`): `getHomepageFeatured`,
  `getCategoryFeatured`, `getAllCategoryPhotos`, `getCountryPhotos`,
  `getPhotoPath`, `getPhotoAlt`;
* the CSV import tool (`src/scripts/import-photos-csv.ts`): `validateRow`,
  `parseCSV`'s per-row validation pass, `checkDuplicates`, `importPhotos`;
* the CSV update tool (`src/scripts/update-photos-csv.ts` plus
  `src/scripts/shared/validation.ts`): field validators,
  `checkPhotosExist`, `buildUpdateOperations`, `updatePhotos`;
* the view assembler (`src/utils/imageProcessor.ts`): `processPhoto` with
  the image map of `src/utils/imageLoader.ts` abstracted as a lookup
  function.

SQL queries are modelled as list transformations: `WHERE` becomes `filter`,
`ORDER BY` becomes a stable sort of the table scanned in primary-key order
(which is how SQLite actually enumerates this table and its partial
indexes: entries with equal sort keys appear in rowid order), `LIMIT n`
becomes `take n`.  A SQLite `TEXT` value is a `String`, a nullable column
is an `Option`, `INTEGER` is `Int` (ids are `Nat`, as `AUTOINCREMENT`
assigns positive ids).  JavaScript string tests of the form `!x?.trim()`
are modelled by `jsBlank`, and `parseInt` (decimal behaviour) by
`parseIntJS`.  The filesystem-existence check (`existsSync`) and the Vite
image map are abstracted as boolean / optional lookup parameters, as they
live outside the repository's code.
-/

/-! ### String primitives

JavaScript string operations are modelled on character lists (Lean's
built-in `String.trim`, `toLower`, `endsWith` and `<` are byte-position
based and do not reduce in the kernel).  String comparison is
lexicographic on Unicode scalar values, which agrees with both SQLite's
BINARY collation on UTF-8 text and the JavaScript `<` operator on the
repository's data. -/

/-- The ASCII whitespace characters stripped by `String.prototype.trim`. -/
def isJsWhitespace (c : Char) : Bool := [' ', '\t', '\n', '\r'].contains c

/-- Model of `s.trim()`. -/
def trimJS (s : String) : String :=
  (((s.toList.dropWhile isJsWhitespace).reverse.dropWhile isJsWhitespace).reverse).asString

/-- Emptiness test on the character list. -/
def isEmptyStr (s : String) : Bool := s.toList.isEmpty

/-- Model of `s.toLowerCase()`. -/
def toLowerJS (s : String) : String := (s.toList.map Char.toLower).asString

/-- Model of `s.endsWith(suffix)`. -/
def endsWithJS (suffix s : String) : Bool := suffix.toList.isSuffixOf s.toList

/-- Strict string comparison (SQLite BINARY collation), lexicographic on
the character list. -/
def ltStrB (a b : String) : Bool := decide (a.toList < b.toList)

/-- A row of the `photos` table (`src/db/schema.sql`), also the `Photo`
interface of `src/utils/db.ts`.  `country_featured` is the column added by
the migration checked in `src/scripts/validate-constraints.ts`; rows
created by the CSV import leave it `none`. -/
structure Photo where
  id : Nat
  filename : String
  category : String
  caption : String
  location : String
  country : String
  date : Option String
  sub_category : Option String
  homepage_featured : Option Int
  category_featured : Option Int
  country_featured : Option Int
  created_at : String
  updated_at : String
deriving DecidableEq

/-- The `VALID_CATEGORIES` constant of the scripts and the `CHECK(category
IN ('nature','street','concert'))` constraint of the schema. -/
def validCategories : List String := ["nature", "street", "concert"]

/-- Membership test `VALID_CATEGORIES.includes(c)`. -/
def isValidCategory (c : String) : Bool := validCategories.contains c

/-- The non-uniqueness row constraints of the schema: category enum
membership and `length(caption) > 0`, `length(location) > 0`,
`length(country) > 0`. -/
def rowSatisfiesSchema (p : Photo) : Bool :=
  isValidCategory p.category && decide (0 < p.caption.length)
    && decide (0 < p.location.length) && decide (0 < p.country.length)

/-- The `filename TEXT UNIQUE` constraint, as a predicate on a table
state. -/
def filenamesDistinct (store : List Photo) : Prop :=
  store.Pairwise fun a b => a.filename ≠ b.filename

/-- Function `getPhotoPath` of `src/utils/db.ts`: `/images/photography/` followed by
category and filename. -/
def getPhotoPath (photo : Photo) : String :=
  "/images/photography/" ++ photo.category ++ "/" ++ photo.filename

/-- Function `getPhotoAlt` of `src/utils/db.ts`: the template
`country, location - caption`. -/
def getPhotoAlt (photo : Photo) : String :=
  photo.country ++ ", " ++ photo.location ++ " - " ++ photo.caption

/-! ### Stable sorting, the model of SQL `ORDER BY`

`sortBy le` is insertion sort with a total preorder given as a boolean
comparator; it is stable (elements tied under `le` keep their input
order).  SQLite enumerates this table and its indexes in rowid order, so
rows with equal `ORDER BY` keys are returned in id order; a stable sort of
the id-ordered table is exactly that. -/

/-- Insert `x` in front of the first element `y` with `le x y`. -/
def insertSorted (le : α → α → Bool) (x : α) : List α → List α
  | [] => [x]
  | y :: ys => if le x y then x :: y :: ys else y :: insertSorted le x ys

/-- Stable insertion sort by a boolean comparator. -/
def sortBy (le : α → α → Bool) : List α → List α
  | [] => []
  | x :: xs => insertSorted le x (sortBy le xs)

/-- SQLite `ORDER BY <integer column> ASC`: `NULL` sorts before every
integer. -/
def leOptIntNullsFirst : Option Int → Option Int → Bool
  | none, _ => true
  | some _, none => false
  | some x, some y => decide (x ≤ y)

/-- Strict comparison of two nullable `TEXT` values, `NULL` first (SQLite
`ASC` ordering). -/
def ltOptStrNullsFirst : Option String → Option String → Bool
  | none, none => false
  | none, some _ => true
  | some _, none => false
  | some x, some y => ltStrB x y

/-- SQLite `ORDER BY <text column> DESC` as a non-strict comparator:
larger text first, `NULL` last. -/
def leOptStrDesc (x y : Option String) : Bool :=
  if x = y then true else ltOptStrNullsFirst y x

/-- Lexicographic combination: strict comparison on the first component,
then a non-strict comparator on the rest. -/
def lexLe (lt₁ : κ → κ → Bool) (le₂ : μ → μ → Bool) [DecidableEq κ]
    (a b : κ × μ) : Bool :=
  if a.1 = b.1 then le₂ a.2 b.2 else lt₁ a.1 b.1

/-- Comparator of `ORDER BY homepage_featured ASC`. -/
def leHomepage (a b : Photo) : Bool :=
  leOptIntNullsFirst a.homepage_featured b.homepage_featured

/-- Comparator of `ORDER BY category_featured ASC`. -/
def leCategoryFeatured (a b : Photo) : Bool :=
  leOptIntNullsFirst a.category_featured b.category_featured

/-- The `CASE WHEN sub_category IS NULL THEN 1 ELSE 0 END` sort key. -/
def subNullRank (p : Photo) : Nat :=
  match p.sub_category with
  | none => 1
  | some _ => 0

/-- Strict `<` on `Nat` as a boolean. -/
def ltNat (x y : Nat) : Bool := decide (x < y)

/-- Sort key of `getAllCategoryPhotos`: null-subcategory rank, then
`sub_category ASC`, then `date DESC`. -/
def categoryRowsKey (p : Photo) : Nat × (Option String × Option String) :=
  (subNullRank p, (p.sub_category, p.date))

/-- Comparator of `ORDER BY CASE WHEN sub_category IS NULL THEN 1 ELSE 0
END, sub_category ASC, date DESC`. -/
def leCategoryRows (a b : Photo) : Bool :=
  lexLe ltNat (lexLe ltOptStrNullsFirst leOptStrDesc)
    (categoryRowsKey a) (categoryRowsKey b)

/-- Sort key of `getCountryPhotos`: `location ASC` then `date DESC`.  The
query also ranks `NULL` locations last, but `location` is `NOT NULL` by
the schema, so that `CASE` key is constantly `0` and is omitted. -/
def countryRowsKey (p : Photo) : String × Option String :=
  (p.location, p.date)

/-- Comparator of `ORDER BY CASE WHEN location IS NULL THEN 1 ELSE 0 END,
location ASC, date DESC` on schema-conformant rows. -/
def leCountryRows (a b : Photo) : Bool :=
  lexLe ltStrB leOptStrDesc (countryRowsKey a) (countryRowsKey b)

/-! ### The query layer (`src/utils/db.ts`) -/

/-- Query `getHomepageFeatured`: `SELECT * FROM photos WHERE homepage_featured IS
NOT NULL ORDER BY homepage_featured ASC LIMIT 7`. -/
def getHomepageFeatured (store : List Photo) : List Photo :=
  (sortBy leHomepage (store.filter fun p => p.homepage_featured.isSome)).take 7

/-- Query `getCategoryFeatured`: `SELECT * FROM photos WHERE category = ? AND
category_featured IS NOT NULL ORDER BY category_featured ASC`. -/
def getCategoryFeatured (category : String) (store : List Photo) : List Photo :=
  sortBy leCategoryFeatured
    (store.filter fun p => p.category == category && p.category_featured.isSome)

/-- Query `getAllCategoryPhotos`: `SELECT * FROM photos WHERE category = ? ORDER
BY CASE WHEN sub_category IS NULL THEN 1 ELSE 0 END, sub_category ASC,
date DESC`. -/
def getAllCategoryPhotos (category : String) (store : List Photo) : List Photo :=
  sortBy leCategoryRows (store.filter fun p => p.category == category)

/-- Query `getCountryPhotos`: `SELECT * FROM photos WHERE country = ? ORDER BY
CASE WHEN location IS NULL THEN 1 ELSE 0 END, location ASC, date DESC`. -/
def getCountryPhotos (country : String) (store : List Photo) : List Photo :=
  sortBy leCountryRows (store.filter fun p => p.country == country)

/-! ### Grouping of query results into page sections

The category and country page components are not part of the sources under
review; their grouping behaviour is modelled from the spec. -/

/-- Group a list into maximal runs of consecutive elements sharing a key. -/
def groupRuns [DecidableEq κ] (f : α → κ) : List α → List (κ × List α)
  | [] => []
  | x :: xs =>
    match groupRuns f xs with
    | [] => [(f x, [x])]
    | (k, g) :: rest =>
      if f x = k then (k, x :: g) :: rest else (f x, [x]) :: (k, g) :: rest

/-- Modelled from the spec: the category page component (not under the
sources reviewed here) groups the rows of `getAllCategoryPhotos` by
`sub_category`, displaying rows without one under a literal "Other"
heading. -/
def groupBySubCategory (rows : List Photo) : List (String × List Photo) :=
  (groupRuns (fun p => p.sub_category) rows).map fun g => (g.1.getD "Other", g.2)

/-- Modelled from the spec: the country page component (not under the
sources reviewed here) groups the rows of `getCountryPhotos` by
`location`. -/
def groupByLocation (rows : List Photo) : List (String × List Photo) :=
  groupRuns (fun p => p.location) rows

/-- Strict "date descending, `NULL` dates last, ties broken by id
ascending" — the within-group row order promised by the spec. -/
def dateDescThenId (a b : Photo) : Prop :=
  (a.date = b.date ∧ a.id < b.id)
    ∨ (b.date = none ∧ a.date ≠ none)
    ∨ (∃ s t, a.date = some s ∧ b.date = some t ∧ t < s)

/-! ### JavaScript string and number primitives -/

/-- Model of `!x?.trim()`: the value is absent, or blank after trimming. -/
def jsBlank : Option String → Bool
  | none => true
  | some s => isEmptyStr (trimJS s)

/-- Numeric value of a run of decimal digits. -/
def digitsVal (cs : List Char) : Nat :=
  cs.foldl (fun n c => n * 10 + (c.toNat - 48)) 0

/-- JavaScript `parseInt` on a trimmed string, decimal behaviour: an
optional sign followed by a maximal run of digits; `none` models `NaN`. -/
def parseIntJS (s : String) : Option Int :=
  match s.toList with
  | '-' :: rest =>
    let ds := rest.takeWhile Char.isDigit
    if ds.isEmpty then none else some (-(digitsVal ds : Int))
  | '+' :: rest =>
    let ds := rest.takeWhile Char.isDigit
    if ds.isEmpty then none else some (digitsVal ds)
  | cs =>
    let ds := cs.takeWhile Char.isDigit
    if ds.isEmpty then none else some (digitsVal ds)

/-- The regular expression `^\d4-\d2-\d2$` used for `date` validation. -/
def isDateFormat (s : String) : Bool :=
  match s.toList with
  | [a, b, c, d, e, f, g, h, i, j] =>
    a.isDigit && b.isDigit && c.isDigit && d.isDigit && (e == '-')
      && f.isDigit && g.isDigit && (h == '-') && i.isDigit && j.isDigit
  | _ => false

/-- The `VALID_EXTENSIONS` list of the scripts. -/
def validExtensions : List String := [".jpg", ".jpeg", ".png", ".webp", ".avif"]

/-- Model of `validExtensions.some(ext => filename.toLowerCase().endsWith(ext))`. -/
def hasValidExt (filename : String) : Bool :=
  validExtensions.any fun ext => endsWithJS ext (toLowerJS filename)

/-! ### CSV import (`src/scripts/import-photos-csv.ts`) -/

/-- A parsed CSV record of the import tool: a present column is `some`
(its string cell value), an absent column is `none` (`undefined`). -/
structure CSVRow where
  filename : Option String
  category : Option String
  caption : Option String
  location : Option String
  country : Option String
  date : Option String
  sub_category : Option String
  homepage_featured : Option String
  category_featured : Option String
deriving DecidableEq

/-- The `ValidationError` interface: 1-based CSV line number (the header
is line 1, so data row `i` is line `i + 2`), offending field, message. -/
structure ValidationError where
  row : Nat
  field : String
  message : String
deriving DecidableEq

/-- The filename checks of `validateRow`: required, then extension (tested
on the untrimmed value, as in the source). -/
def filenameRule (r : CSVRow) (rowNum : Nat) : List ValidationError :=
  if jsBlank r.filename then
    [⟨rowNum, "filename", "Filename is required"⟩]
  else if hasValidExt (r.filename.getD "") then []
  else [⟨rowNum, "filename", "Must end with .jpg, .jpeg, .png, .webp, .avif"⟩]

/-- The category checks of `validateRow`: required, then enum membership
(tested on the untrimmed value, as in the source). -/
def categoryRule (r : CSVRow) (rowNum : Nat) : List ValidationError :=
  if jsBlank r.category then
    [⟨rowNum, "category", "Category is required"⟩]
  else if isValidCategory (r.category.getD "") then []
  else [⟨rowNum, "category", "Must be one of: nature, street, concert"⟩]

/-- Check `Caption is required`. -/
def captionRule (r : CSVRow) (rowNum : Nat) : List ValidationError :=
  if jsBlank r.caption then [⟨rowNum, "caption", "Caption is required"⟩] else []

/-- Check `Location is required`. -/
def locationRule (r : CSVRow) (rowNum : Nat) : List ValidationError :=
  if jsBlank r.location then [⟨rowNum, "location", "Location is required"⟩] else []

/-- Check `Country is required`. -/
def countryRule (r : CSVRow) (rowNum : Nat) : List ValidationError :=
  if jsBlank r.country then [⟨rowNum, "country", "Country is required"⟩] else []

/-- Optional `date` check: when present and non-blank, must match
`YYYY-MM-DD`. -/
def dateRule (r : CSVRow) (rowNum : Nat) : List ValidationError :=
  match r.date with
  | none => []
  | some s =>
    if isEmptyStr (trimJS s) then []
    else if isDateFormat (trimJS s) then []
    else [⟨rowNum, "date", "Must be in YYYY-MM-DD format"⟩]

/-- Optional `homepage_featured` check: `parseInt` result in `1..7`. -/
def homepageFeaturedRule (r : CSVRow) (rowNum : Nat) : List ValidationError :=
  match r.homepage_featured with
  | none => []
  | some s =>
    if isEmptyStr (trimJS s) then []
    else
      match parseIntJS (trimJS s) with
      | none => [⟨rowNum, "homepage_featured", "Must be a number between 1 and 7"⟩]
      | some v =>
        if v < 1 ∨ 7 < v then
          [⟨rowNum, "homepage_featured", "Must be a number between 1 and 7"⟩]
        else []

/-- Optional `category_featured` check: `parseInt` result positive. -/
def categoryFeaturedRule (r : CSVRow) (rowNum : Nat) : List ValidationError :=
  match r.category_featured with
  | none => []
  | some s =>
    if isEmptyStr (trimJS s) then []
    else
      match parseIntJS (trimJS s) with
      | none => [⟨rowNum, "category_featured", "Must be a positive number"⟩]
      | some v =>
        if v < 1 then [⟨rowNum, "category_featured", "Must be a positive number"⟩]
        else []

/-- Filesystem-existence check: when filename and a valid category are
present, `existsSync` (abstracted as `fe category trimmedFilename`) must
hold. -/
def fileExistsRule (fe : String → String → Bool) (r : CSVRow) (rowNum : Nat) :
    List ValidationError :=
  if !jsBlank r.filename && !jsBlank r.category
      && isValidCategory (r.category.getD "") then
    if fe (r.category.getD "") (trimJS (r.filename.getD "")) then []
    else [⟨rowNum, "filename", "Photo file not found"⟩]
  else []

/-- The rule checkers of `validateRow`, in source order.  Each depends only
on its own row and produces the errors of one field check. -/
def ruleResults (fe : String → String → Bool) (r : CSVRow) (rowNum : Nat) :
    List (List ValidationError) :=
  [filenameRule r rowNum, categoryRule r rowNum, captionRule r rowNum,
   locationRule r rowNum, countryRule r rowNum, dateRule r rowNum,
   homepageFeaturedRule r rowNum, categoryFeaturedRule r rowNum,
   fileExistsRule fe r rowNum]

/-- Function `validateRow(row, rowIndex)`: all rule violations of one row, reported
against CSV line `rowIndex + 2`. -/
def validateRow (fe : String → String → Bool) (r : CSVRow) (rowIndex : Nat) :
    List ValidationError :=
  (ruleResults fe r (rowIndex + 2)).flatten

/-- The validation pass of `parseCSV`: `records.forEach((row, index) =>
errors.push(...validateRow(row, index)))`. -/
def validateAll (fe : String → String → Bool) (rows : List CSVRow) :
    List ValidationError :=
  rows.enum.flatMap fun ir => validateRow fe ir.2 ir.1

/-- First pass of `checkDuplicates`: duplicate filenames within the CSV,
tracked with a `seen` set. -/
def dupInCSVAux (seen : List String) : List (Nat × CSVRow) → List ValidationError
  | [] => []
  | ir :: rest =>
    if isEmptyStr (trimJS (ir.2.filename.getD "")) then dupInCSVAux seen rest
    else
      (if seen.contains (trimJS (ir.2.filename.getD "")) then
        [⟨ir.1 + 2, "filename",
          "Duplicate filename in CSV: " ++ trimJS (ir.2.filename.getD "")⟩]
      else [])
        ++ dupInCSVAux (trimJS (ir.2.filename.getD "") :: seen) rest

/-- Second pass of `checkDuplicates`: filenames already present in the
database. -/
def dupInDbAux (store : List Photo) : List (Nat × CSVRow) → List ValidationError
  | [] => []
  | ir :: rest =>
    (if isEmptyStr (trimJS (ir.2.filename.getD "")) then []
     else if store.any fun q => q.filename == trimJS (ir.2.filename.getD "") then
       [⟨ir.1 + 2, "filename",
         "Photo already exists in database: " ++ trimJS (ir.2.filename.getD "")⟩]
     else []) ++ dupInDbAux store rest

/-- Function `checkDuplicates(rows, db)`. -/
def checkDuplicates (rows : List CSVRow) (store : List Photo) :
    List ValidationError :=
  dupInCSVAux [] rows.enum ++ dupInDbAux store rows.enum

/-- Model of `row.x?.trim() || null` — an optional text column of the insert. -/
def csvOptField : Option String → Option String
  | none => none
  | some s => if isEmptyStr (trimJS s) then none else some (trimJS s)

/-- Model of `row.x?.trim() ? parseInt(row.x.trim()) : null` — an optional integer
column of the insert.  (A `NaN` result cannot reach the insert, since
validation has passed; it is conflated with `NULL` here.) -/
def csvIntField : Option String → Option Int
  | none => none
  | some s => if isEmptyStr (trimJS s) then none else parseIntJS (trimJS s)

/-- The `INSERT INTO photos (...) VALUES (...)` of the import transaction,
for one CSV row, with `id` assigned by `AUTOINCREMENT` and the timestamp
columns filled by their `datetime('now')` defaults. -/
def rowToPhoto (now : String) (pid : Nat) (r : CSVRow) : Photo :=
  { id := pid
    filename := trimJS (r.filename.getD "")
    category := trimJS (r.category.getD "")
    caption := trimJS (r.caption.getD "")
    location := trimJS (r.location.getD "")
    country := trimJS (r.country.getD "")
    date := csvOptField r.date
    sub_category := csvOptField r.sub_category
    homepage_featured := csvIntField r.homepage_featured
    category_featured := csvIntField r.category_featured
    country_featured := none
    created_at := now
    updated_at := now }

/-- Largest id present in the table (`AUTOINCREMENT` never reuses ids, so
fresh ids start above it). -/
def maxId (store : List Photo) : Nat :=
  store.foldr (fun p n => max p.id n) 0

/-- The rows inserted by one import transaction, in input order with
consecutive fresh ids. -/
def importRows (now : String) (startId : Nat) (rows : List CSVRow) : List Photo :=
  rows.enum.map fun ir => rowToPhoto now (startId + ir.1) ir.2

/-- Function `importPhotos(filepath, dryRun)`, from the point where the CSV has been
parsed: validate every row, check duplicates, and only if both passes
report nothing (and this is not a dry run, and the interactive
confirmation was accepted) insert every row inside one transaction.  The
result pairs the reported error list (`none` on success) with the table
state after the call. -/
def importPhotos (fe : String → String → Bool) (rows : List CSVRow)
    (dryRun : Bool) (now : String) (store : List Photo) :
    Option (List ValidationError) × List Photo :=
  let vErrs := validateAll fe rows
  if vErrs.isEmpty then
    let dErrs := checkDuplicates rows store
    if dErrs.isEmpty then
      if dryRun then (none, store)
      else (none, store ++ importRows now (maxId store + 1) rows)
    else (some dErrs, store)
  else (some vErrs, store)

/-- Error raised by the store when a write would break a schema
constraint. -/
inductive DbError where
  | constraintViolation
deriving DecidableEq

/-- A single `INSERT` against the schema (`insert(photo) -> id` of the
store contract): rejected with `ConstraintViolation` when the filename is
already taken (`filename TEXT UNIQUE`) or a CHECK constraint fails,
committed otherwise. -/
def insertPhoto (store : List Photo) (p : Photo) : Option DbError × List Photo :=
  if store.any fun q => q.filename == p.filename then
    (some .constraintViolation, store)
  else if rowSatisfiesSchema p then (none, store ++ [p])
  else (some .constraintViolation, store)

/-! ### CSV update (`src/scripts/update-photos-csv.ts` with
`src/scripts/shared/validation.ts`) -/

/-- A parsed CSV record of the update tool. -/
structure URow where
  id : Option String
  filename : Option String
  category : Option String
  caption : Option String
  location : Option String
  country : Option String
  homepage_featured : Option String
  category_featured : Option String
  country_featured : Option String
deriving DecidableEq

/-- Shared `validateFilename`: required, then extension (tested on the
untrimmed value). -/
def validateFilename (filename : Option String) (rowNum : Nat) :
    Option ValidationError :=
  if jsBlank filename then some ⟨rowNum, "filename", "Filename is required"⟩
  else if hasValidExt (filename.getD "") then none
  else some ⟨rowNum, "filename", "Must end with .jpg, .jpeg, .png, .webp, .avif"⟩

/-- Shared `validateCategory`: enum membership, required only when asked. -/
def validateCategory (category : Option String) (rowNum : Nat)
    (required : Bool) : Option ValidationError :=
  if jsBlank category then
    if required then some ⟨rowNum, "category", "Category is required"⟩ else none
  else if isValidCategory (category.getD "") then none
  else some ⟨rowNum, "category", "Must be one of: nature, street, concert"⟩

/-- Shared `validateHomepageFeatured`: blank is fine, otherwise `parseInt`
must give `0` or `1`. -/
def validateHomepageFeatured (v : Option String) (rowNum : Nat) :
    Option ValidationError :=
  match v with
  | none => none
  | some s =>
    if isEmptyStr (trimJS s) then none
    else
      match parseIntJS (trimJS s) with
      | none => some ⟨rowNum, "homepage_featured", "Must be 0 or 1"⟩
      | some n => if n = 0 ∨ n = 1 then none
        else some ⟨rowNum, "homepage_featured", "Must be 0 or 1"⟩

/-- Shared `validateCategoryFeatured`: blank is fine, otherwise `parseInt`
must give `0`, `1`, `2`, `3` or `4`. -/
def validateCategoryFeatured (v : Option String) (rowNum : Nat) :
    Option ValidationError :=
  match v with
  | none => none
  | some s =>
    if isEmptyStr (trimJS s) then none
    else
      match parseIntJS (trimJS s) with
      | none => some ⟨rowNum, "category_featured", "Must be 0, 1, 2, 3, or 4"⟩
      | some n => if n = 0 ∨ n = 1 ∨ n = 2 ∨ n = 3 ∨ n = 4 then none
        else some ⟨rowNum, "category_featured", "Must be 0, 1, 2, 3, or 4"⟩

/-- Shared `validateCountryFeatured`: blank is fine, otherwise `parseInt`
must give `0` or `1`. -/
def validateCountryFeatured (v : Option String) (rowNum : Nat) :
    Option ValidationError :=
  match v with
  | none => none
  | some s =>
    if isEmptyStr (trimJS s) then none
    else
      match parseIntJS (trimJS s) with
      | none => some ⟨rowNum, "country_featured", "Must be 0 or 1"⟩
      | some n => if n = 0 ∨ n = 1 then none
        else some ⟨rowNum, "country_featured", "Must be 0 or 1"⟩

/-- Function `validateRow` of the update tool: an identifier is mandatory
(and its absence short-circuits the row), every other field is validated
only when supplied. -/
def validateURow (fe : String → String → Bool) (avail : List String)
    (r : URow) (rowIndex : Nat) : List ValidationError :=
  let rowNum := rowIndex + 2
  if jsBlank r.id && jsBlank r.filename then
    [⟨rowNum, "id/filename", "Either id or filename is required to identify the photo"⟩]
  else
    (if jsBlank r.filename then [] else (validateFilename r.filename rowNum).toList)
    ++ (if jsBlank r.category then []
        else (validateCategory r.category rowNum false).toList)
    ++ (if avail.contains "caption" && r.caption.isSome && jsBlank r.caption then
          [⟨rowNum, "caption", "Caption cannot be empty (required for alt text)"⟩]
        else [])
    ++ (if avail.contains "location" && r.location.isSome && jsBlank r.location then
          [⟨rowNum, "location", "Location cannot be empty (required for alt text)"⟩]
        else [])
    ++ (if avail.contains "country" && r.country.isSome && jsBlank r.country then
          [⟨rowNum, "country", "Country cannot be empty (required for alt text)"⟩]
        else [])
    ++ (validateHomepageFeatured r.homepage_featured rowNum).toList
    ++ (validateCategoryFeatured r.category_featured rowNum).toList
    ++ (validateCountryFeatured r.country_featured rowNum).toList
    ++ (if !jsBlank r.filename && !jsBlank r.category
          && isValidCategory (r.category.getD "") then
          if fe (r.category.getD "") (trimJS (r.filename.getD "")) then []
          else [⟨rowNum, "filename", "Photo file not found"⟩]
        else [])

/-- Function `checkPhotosExist`: every row's identifier must resolve to a
database row (by `id` when supplied, else by `filename`). -/
def checkPhotosExist (store : List Photo) : List (Nat × URow) → List ValidationError
  | [] => []
  | ir :: rest =>
    (if !(isEmptyStr (trimJS (ir.2.id.getD ""))) then
      match parseIntJS (trimJS (ir.2.id.getD "")) with
      | none => [⟨ir.1 + 2, "id", "ID must be a number"⟩]
      | some n =>
        if store.any fun p => (p.id : Int) == n then []
        else [⟨ir.1 + 2, "id", "Photo with this ID not found in database"⟩]
    else if !(isEmptyStr (trimJS (ir.2.filename.getD ""))) then
      if store.any fun p => p.filename == trimJS (ir.2.filename.getD "") then []
      else [⟨ir.1 + 2, "filename", "Photo not found in database"⟩]
    else []) ++ checkPhotosExist store rest

/-- One update operation of `buildUpdateOperations`, as a typed record: a
writable column is `some` when it is present in the CSV (so it is in the
dynamic `SET` clause) and `none` when it is absent (so the column is left
untouched).  For the three featured columns a present-but-blank cell sets
the column to `NULL` (the inner `Option`). -/
structure UpdateOp where
  category : Option String
  caption : Option String
  location : Option String
  country : Option String
  homepage_featured : Option (Option Int)
  category_featured : Option (Option Int)
  country_featured : Option (Option Int)
deriving DecidableEq

/-- A CSV cell participates in the update only when its column is in the
header.  Mirrors `updateableColumns.filter(col => availableColumns.has(col))`
combined with the `value !== undefined` test. -/
def presentCol (avail : List String) (col : String) (v : Option String) :
    Option String :=
  if avail.contains col then v else none

/-- Function `buildUpdateOperations` for one row: text columns are
trimmed, featured columns go through `value.trim() ? parseInt(...) : null`
(a `NaN` result is unreachable after validation and is conflated with
`NULL`). -/
def buildOp (avail : List String) (r : URow) : UpdateOp :=
  { category := (presentCol avail "category" r.category).map trimJS
    caption := (presentCol avail "caption" r.caption).map trimJS
    location := (presentCol avail "location" r.location).map trimJS
    country := (presentCol avail "country" r.country).map trimJS
    homepage_featured := (presentCol avail "homepage_featured" r.homepage_featured).map
      fun s => if isEmptyStr (trimJS s) then none else parseIntJS (trimJS s)
    category_featured := (presentCol avail "category_featured" r.category_featured).map
      fun s => if isEmptyStr (trimJS s) then none else parseIntJS (trimJS s)
    country_featured := (presentCol avail "country_featured" r.country_featured).map
      fun s => if isEmptyStr (trimJS s) then none else parseIntJS (trimJS s) }

/-- Check `op.fields.length === 0` — an operation with no supplied column
issues no `UPDATE` statement at all. -/
def opHasFields (op : UpdateOp) : Bool :=
  op.category.isSome || op.caption.isSome || op.location.isSome
    || op.country.isSome || op.homepage_featured.isSome
    || op.category_featured.isSome || op.country_featured.isSome

/-- The dynamic `UPDATE photos SET <supplied fields>, updated_at =
datetime('now') WHERE ...` applied to one matching row. -/
def applyOp (now : String) (op : UpdateOp) (p : Photo) : Photo :=
  { p with
    category := op.category.getD p.category
    caption := op.caption.getD p.caption
    location := op.location.getD p.location
    country := op.country.getD p.country
    homepage_featured := op.homepage_featured.getD p.homepage_featured
    category_featured := op.category_featured.getD p.category_featured
    country_featured := op.country_featured.getD p.country_featured
    updated_at := now }

/-- The `WHERE id = ?` / `WHERE filename = ?` selector of the dynamic
update: by `id` when the row supplies one, else by trimmed filename. -/
def rowMatches (r : URow) (p : Photo) : Bool :=
  if !(isEmptyStr (trimJS (r.id.getD ""))) then
    match parseIntJS (trimJS (r.id.getD "")) with
    | some n => (p.id : Int) == n
    | none => false
  else p.filename == trimJS (r.filename.getD "")

/-- One iteration of the update transaction: skip the row when it supplies
no field, otherwise run its `UPDATE` against every matching table row. -/
def applyRowUpdate (avail : List String) (now : String) (r : URow)
    (st : List Photo) : List Photo :=
  let op := buildOp avail r
  if opHasFields op then
    st.map fun p => if rowMatches r p then applyOp now op p else p
  else st

/-- Function `updatePhotos(filepath, dryRun)`, from the point where the
CSV has been parsed: validate every row, check that every identifier
resolves, and only then (unless this is a dry run) run every row's
`UPDATE` inside one transaction, in input order. -/
def updatePhotos (fe : String → String → Bool) (avail : List String)
    (rows : List URow) (dryRun : Bool) (now : String) (store : List Photo) :
    Option (List ValidationError) × List Photo :=
  let vErrs := rows.enum.flatMap fun ir => validateURow fe avail ir.2 ir.1
  if vErrs.isEmpty then
    let eErrs := checkPhotosExist store rows.enum
    if eErrs.isEmpty then
      if dryRun then (none, store)
      else (none, rows.foldl (fun st r => applyRowUpdate avail now r st) store)
    else (some eErrs, store)
  else (some vErrs, store)

/-! ### View assembler (`src/utils/imageProcessor.ts`) -/

/-- Dimensions of an imported image (`ImageMetadata` of the asset
pipeline). -/
structure ImageMeta where
  width : Nat
  height : Nat
deriving DecidableEq

/-- The `ProcessedImage` view model.  The source field `aspectRatio` is
named `aspectRatioVal` here. -/
structure ProcessedImage where
  src : String
  alt : String
  caption : String
  location : String
  country : String
  category : String
  aspectRatioVal : ℚ
  lightboxSrc : String
  originalSrc : String
  importedImage : Option ImageMeta
deriving DecidableEq

/-- Function `processPhoto(photo, options)`.  `imageMap` abstracts
`getImageByPath` of `src/utils/imageLoader.ts` (the Vite glob import map);
`optimize` abstracts the external `astro:assets` `getImage` call, with
`none` standing for the caught optimization error.  When the derived path
has no entry in the image map the function warns and returns the
fallback view model; it never throws. -/
def processPhoto (imageMap : String → Option ImageMeta)
    (optimize : ImageMeta → Nat → Int → Nat → Option String)
    (includeLightbox : Bool) (lightboxWidth lightboxQuality : Nat)
    (photo : Photo) : ProcessedImage :=
  let imagePath := getPhotoPath photo
  match imageMap imagePath with
  | none =>
    { src := imagePath
      alt := getPhotoAlt photo
      caption := photo.caption
      location := photo.location
      country := photo.country
      category := photo.category
      aspectRatioVal := 3 / 2
      lightboxSrc := imagePath
      originalSrc := imagePath
      importedImage := none }
  | some img =>
    let ar : ℚ := (img.width : ℚ) / (img.height : ℚ)
    let lightboxSrc :=
      if includeLightbox && !(endsWithJS ".svg" (toLowerJS imagePath)) then
        match optimize img lightboxWidth (round ((lightboxWidth : ℚ) / ar))
            lightboxQuality with
        | some s => s
        | none => imagePath
      else imagePath
    { src := imagePath
      alt := getPhotoAlt photo
      caption := photo.caption
      location := photo.location
      country := photo.country
      category := photo.category
      aspectRatioVal := ar
      lightboxSrc := lightboxSrc
      originalSrc := imagePath
      importedImage := some img }

/-! ### Concrete sample data for witnesses and counterexamples -/

/-- A helper building a schema-conformant photo row. -/
def mkPhoto (i : Nat) (fn cat cap loc ctry : String) (dt sub : Option String)
    (hp cf : Option Int) : Photo :=
  { id := i, filename := fn, category := cat, caption := cap, location := loc
    country := ctry, date := dt, sub_category := sub, homepage_featured := hp
    category_featured := cf, country_featured := none
    created_at := "2024-01-01 00:00:00", updated_at := "2024-01-01 00:00:00" }

/-- A small store: two Turkey nature rows (Istanbul and Cappadocia) and a
street row, with distinct filenames and ids in insertion order. -/
def sampleStore : List Photo :=
  [mkPhoto 1 "tr-istanbul-1.jpg" "nature" "Bosphorus at dusk" "Istanbul" "Turkey"
      (some "2024-03-15") (some "Coast") (some 1) (some 1),
   mkPhoto 2 "tr-cappadocia-1.jpg" "nature" "Balloons at dawn" "Cappadocia" "Turkey"
      (some "2024-03-16") none (some 2) (some 2),
   mkPhoto 3 "us-nyc-street-1.jpg" "street" "Crosswalk rush" "New York" "United States"
      none none none (some 1)]

/-! ## Infrastructure lemmas -/

theorem ltStrB_iff {a b : String} : ltStrB a b = true ↔ a < b := by
  rw [String.lt_iff_toList_lt, ltStrB]
  exact decide_eq_true_iff

theorem ltStrB_irrefl (a : String) : ltStrB a a = false := by
  rw [Bool.eq_false_iff]
  intro h
  exact lt_irrefl a (ltStrB_iff.mp h)

theorem ltStrB_trans {a b c : String} (h₁ : ltStrB a b = true)
    (h₂ : ltStrB b c = true) : ltStrB a c = true :=
  ltStrB_iff.mpr (lt_trans (ltStrB_iff.mp h₁) (ltStrB_iff.mp h₂))

theorem ltStrB_total_ne {a b : String} (h : a ≠ b) :
    ltStrB a b = true ∨ ltStrB b a = true := by
  rcases lt_trichotomy a b with hl | he | hg
  · exact Or.inl (ltStrB_iff.mpr hl)
  · exact absurd he h
  · exact Or.inr (ltStrB_iff.mpr hg)

theorem mem_insertSorted (le : α → α → Bool) (x : α) (l : List α) (a : α) :
    a ∈ insertSorted le x l ↔ a = x ∨ a ∈ l := by
  induction l with
  | nil => simp [insertSorted]
  | cons y ys ih =>
    by_cases h : le x y = true
    · simp [insertSorted, h]
    · simp [insertSorted, h, ih]
      tauto

theorem insertSorted_perm (le : α → α → Bool) (x : α) (l : List α) :
    List.Perm (insertSorted le x l) (x :: l) := by
  induction l with
  | nil => simp [insertSorted]
  | cons y ys ih =>
    by_cases h : le x y = true
    · simp [insertSorted, h]
    · rw [insertSorted, if_neg h]
      exact (ih.cons y).trans (List.Perm.swap x y ys)

theorem sortBy_perm (le : α → α → Bool) (l : List α) : List.Perm (sortBy le l) l := by
  induction l with
  | nil => simp [sortBy]
  | cons x xs ih =>
    rw [sortBy]
    exact (insertSorted_perm le x (sortBy le xs)).trans (ih.cons x)

theorem mem_sortBy {le : α → α → Bool} {l : List α} {a : α} :
    a ∈ sortBy le l ↔ a ∈ l :=
  (sortBy_perm le l).mem_iff

theorem insertSorted_pairwise_lex (le : α → α → Bool) (idf : α → Nat)
    (htrans : ∀ a b c, le a b = true → le b c = true → le a c = true)
    (htot : ∀ a b, le a b = true ∨ le b a = true)
    {x : α} {l : List α}
    (hl : l.Pairwise fun a b => le a b = true ∧ (le b a = true → idf a < idf b))
    (hx : ∀ y ∈ l, idf x < idf y) :
    (insertSorted le x l).Pairwise
      fun a b => le a b = true ∧ (le b a = true → idf a < idf b) := by
  induction l with
  | nil => simp [insertSorted]
  | cons y ys ih =>
    rcases List.pairwise_cons.mp hl with ⟨hy, hys⟩
    by_cases h : le x y = true
    · rw [insertSorted, if_pos h]
      refine List.pairwise_cons.mpr ⟨?_, hl⟩
      intro z hz
      rcases List.mem_cons.mp hz with rfl | hz
      · exact ⟨h, fun _ => hx z (List.mem_cons_self _ _)⟩
      · exact ⟨htrans x y z h (hy z hz).1,
          fun _ => hx z (List.mem_cons_of_mem _ hz)⟩
    · rw [insertSorted, if_neg h]
      refine List.pairwise_cons.mpr
        ⟨?_, ih hys fun z hz => hx z (List.mem_cons_of_mem _ hz)⟩
      intro z hz
      rcases (mem_insertSorted le x ys z).mp hz with rfl | hz
      · exact ⟨(htot z y).resolve_left h, fun hzy => absurd hzy h⟩
      · exact hy z hz

theorem sortBy_pairwise_lex (le : α → α → Bool) (idf : α → Nat)
    (htrans : ∀ a b c, le a b = true → le b c = true → le a c = true)
    (htot : ∀ a b, le a b = true ∨ le b a = true)
    {l : List α} (hids : l.Pairwise fun a b => idf a < idf b) :
    (sortBy le l).Pairwise
      fun a b => le a b = true ∧ (le b a = true → idf a < idf b) := by
  induction l with
  | nil => simp [sortBy]
  | cons x xs ih =>
    rcases List.pairwise_cons.mp hids with ⟨hx, hxs⟩
    rw [sortBy]
    exact insertSorted_pairwise_lex le idf htrans htot (ih hxs)
      fun y hy => hx y (mem_sortBy.mp hy)

theorem lexLe_total [DecidableEq κ] (lt₁ : κ → κ → Bool) (le₂ : μ → μ → Bool)
    (h₁ : ∀ x y, x ≠ y → lt₁ x y = true ∨ lt₁ y x = true)
    (h₂ : ∀ u v, le₂ u v = true ∨ le₂ v u = true) (a b : κ × μ) :
    lexLe lt₁ le₂ a b = true ∨ lexLe lt₁ le₂ b a = true := by
  by_cases h : a.1 = b.1
  · simp only [lexLe, if_pos h, if_pos h.symm]
    exact h₂ a.2 b.2
  · have h' : b.1 ≠ a.1 := fun hh => h hh.symm
    simp only [lexLe, if_neg h, if_neg h']
    exact h₁ a.1 b.1 h

theorem lexLe_trans [DecidableEq κ] (lt₁ : κ → κ → Bool) (le₂ : μ → μ → Bool)
    (h₁t : ∀ x y z, lt₁ x y = true → lt₁ y z = true → lt₁ x z = true)
    (h₁i : ∀ x, lt₁ x x = false)
    (h₂ : ∀ u v w, le₂ u v = true → le₂ v w = true → le₂ u w = true)
    (a b c : κ × μ) (hab : lexLe lt₁ le₂ a b = true)
    (hbc : lexLe lt₁ le₂ b c = true) : lexLe lt₁ le₂ a c = true := by
  by_cases h1 : a.1 = b.1
  · by_cases h2 : b.1 = c.1
    · simp only [lexLe, if_pos h1] at hab
      simp only [lexLe, if_pos h2] at hbc
      simp only [lexLe, if_pos (h1.trans h2)]
      exact h₂ _ _ _ hab hbc
    · simp only [lexLe, if_neg h2] at hbc
      have hac : a.1 ≠ c.1 := fun hh => h2 (h1.symm.trans hh)
      simp only [lexLe, if_neg hac]
      exact h1 ▸ hbc
  · by_cases h2 : b.1 = c.1
    · simp only [lexLe, if_neg h1] at hab
      have hac : a.1 ≠ c.1 := fun hh => h1 (hh.trans h2.symm)
      simp only [lexLe, if_neg hac]
      exact h2 ▸ hab
    · simp only [lexLe, if_neg h1] at hab
      simp only [lexLe, if_neg h2] at hbc
      have hlt := h₁t _ _ _ hab hbc
      have hac : a.1 ≠ c.1 := by
        intro hh
        rw [hh] at hab
        have := h₁t _ _ _ hbc hab
        rw [h₁i] at this
        exact Bool.false_ne_true this
      simp only [lexLe, if_neg hac]
      exact hlt

theorem leOptIntNullsFirst_refl (x : Option Int) : leOptIntNullsFirst x x = true := by
  cases x <;> simp [leOptIntNullsFirst]

theorem leOptIntNullsFirst_total (x y : Option Int) :
    leOptIntNullsFirst x y = true ∨ leOptIntNullsFirst y x = true := by
  cases x <;> cases y <;> simp [leOptIntNullsFirst] <;> omega

theorem leOptIntNullsFirst_trans {x y z : Option Int}
    (h₁ : leOptIntNullsFirst x y = true) (h₂ : leOptIntNullsFirst y z = true) :
    leOptIntNullsFirst x z = true := by
  cases x <;> cases y <;> cases z <;> simp_all [leOptIntNullsFirst] <;> omega

theorem leOptIntNullsFirst_antisymm {x y : Option Int}
    (h₁ : leOptIntNullsFirst x y = true) (h₂ : leOptIntNullsFirst y x = true) :
    x = y := by
  cases x <;> cases y <;> simp_all [leOptIntNullsFirst] <;> omega

theorem ltOptStrNullsFirst_irrefl (x : Option String) :
    ltOptStrNullsFirst x x = false := by
  cases x with
  | none => rfl
  | some s => simpa [ltOptStrNullsFirst] using ltStrB_irrefl s

theorem ltOptStrNullsFirst_trans {x y z : Option String}
    (h₁ : ltOptStrNullsFirst x y = true) (h₂ : ltOptStrNullsFirst y z = true) :
    ltOptStrNullsFirst x z = true := by
  cases x <;> cases y <;> cases z <;> simp_all [ltOptStrNullsFirst]
  exact ltStrB_trans h₁ h₂

theorem ltOptStrNullsFirst_total_ne {x y : Option String} (h : x ≠ y) :
    ltOptStrNullsFirst x y = true ∨ ltOptStrNullsFirst y x = true := by
  cases x with
  | none =>
    cases y with
    | none => exact absurd rfl h
    | some t => simp [ltOptStrNullsFirst]
  | some s =>
    cases y with
    | none => simp [ltOptStrNullsFirst]
    | some t =>
      have hst : s ≠ t := fun hh => h (by rw [hh])
      simpa [ltOptStrNullsFirst] using ltStrB_total_ne hst

theorem leOptStrDesc_refl (x : Option String) : leOptStrDesc x x = true := by
  simp [leOptStrDesc]

theorem leOptStrDesc_total (x y : Option String) :
    leOptStrDesc x y = true ∨ leOptStrDesc y x = true := by
  by_cases h : x = y
  · simp [leOptStrDesc, h]
  · have h' : y ≠ x := fun hh => h hh.symm
    rw [leOptStrDesc, leOptStrDesc, if_neg h, if_neg h']
    exact ltOptStrNullsFirst_total_ne h'

theorem leOptStrDesc_trans {x y z : Option String}
    (h₁ : leOptStrDesc x y = true) (h₂ : leOptStrDesc y z = true) :
    leOptStrDesc x z = true := by
  by_cases hxy : x = y
  · subst hxy
    exact h₂
  · by_cases hyz : y = z
    · subst hyz
      exact h₁
    · rw [leOptStrDesc, if_neg hxy] at h₁
      rw [leOptStrDesc, if_neg hyz] at h₂
      have hzx := ltOptStrNullsFirst_trans h₂ h₁
      have hxz : x ≠ z := by
        intro hh
        subst hh
        rw [ltOptStrNullsFirst_irrefl] at hzx
        exact Bool.false_ne_true hzx
      rw [leOptStrDesc, if_neg hxz]
      exact hzx

theorem leOptStrDesc_antisymm {x y : Option String}
    (h₁ : leOptStrDesc x y = true) (h₂ : leOptStrDesc y x = true) : x = y := by
  by_cases h : x = y
  · exact h
  · have h' : y ≠ x := fun hh => h hh.symm
    rw [leOptStrDesc, if_neg h] at h₁
    rw [leOptStrDesc, if_neg h'] at h₂
    have := ltOptStrNullsFirst_trans h₁ h₂
    rw [ltOptStrNullsFirst_irrefl] at this
    exact absurd this Bool.false_ne_true

theorem ltNat_irrefl (x : Nat) : ltNat x x = false := by simp [ltNat]

theorem ltNat_trans {x y z : Nat} (h₁ : ltNat x y = true) (h₂ : ltNat y z = true) :
    ltNat x z = true := by
  simp [ltNat] at *
  omega

theorem ltNat_total_ne {x y : Nat} (h : x ≠ y) :
    ltNat x y = true ∨ ltNat y x = true := by
  simp [ltNat]
  omega

theorem ltStrB_total_ne' {x y : String} (h : x ≠ y) :
    ltStrB x y = true ∨ ltStrB y x = true := ltStrB_total_ne h

theorem leHomepage_total (a b : Photo) :
    leHomepage a b = true ∨ leHomepage b a = true :=
  leOptIntNullsFirst_total _ _

theorem leHomepage_trans (a b c : Photo) (h₁ : leHomepage a b = true)
    (h₂ : leHomepage b c = true) : leHomepage a c = true :=
  leOptIntNullsFirst_trans h₁ h₂

theorem leCategoryFeatured_total (a b : Photo) :
    leCategoryFeatured a b = true ∨ leCategoryFeatured b a = true :=
  leOptIntNullsFirst_total _ _

theorem leCategoryFeatured_trans (a b c : Photo)
    (h₁ : leCategoryFeatured a b = true) (h₂ : leCategoryFeatured b c = true) :
    leCategoryFeatured a c = true :=
  leOptIntNullsFirst_trans h₁ h₂

theorem leCategoryRows_total (a b : Photo) :
    leCategoryRows a b = true ∨ leCategoryRows b a = true :=
  lexLe_total ltNat (lexLe ltOptStrNullsFirst leOptStrDesc)
    (fun _ _ h => ltNat_total_ne h)
    (lexLe_total ltOptStrNullsFirst leOptStrDesc
      (fun _ _ h => ltOptStrNullsFirst_total_ne h) leOptStrDesc_total) _ _

theorem leCategoryRows_trans (a b c : Photo) (h₁ : leCategoryRows a b = true)
    (h₂ : leCategoryRows b c = true) : leCategoryRows a c = true := by
  unfold leCategoryRows at h₁ h₂ ⊢
  exact lexLe_trans ltNat (lexLe ltOptStrNullsFirst leOptStrDesc)
    (fun _ _ _ h h' => ltNat_trans h h') ltNat_irrefl
    (lexLe_trans ltOptStrNullsFirst leOptStrDesc
      (fun _ _ _ h h' => ltOptStrNullsFirst_trans h h')
      ltOptStrNullsFirst_irrefl fun _ _ _ h h' => leOptStrDesc_trans h h')
    _ _ _ h₁ h₂

theorem leCountryRows_total (a b : Photo) :
    leCountryRows a b = true ∨ leCountryRows b a = true :=
  lexLe_total ltStrB leOptStrDesc (fun _ _ h => ltStrB_total_ne h)
    leOptStrDesc_total _ _

theorem leCountryRows_trans (a b c : Photo) (h₁ : leCountryRows a b = true)
    (h₂ : leCountryRows b c = true) : leCountryRows a c = true := by
  unfold leCountryRows at h₁ h₂ ⊢
  exact lexLe_trans ltStrB leOptStrDesc (fun _ _ _ h h' => ltStrB_trans h h')
    ltStrB_irrefl (fun _ _ _ h h' => leOptStrDesc_trans h h') _ _ _ h₁ h₂

theorem groupRuns_flatten [DecidableEq κ] (f : α → κ) (l : List α) :
    ((groupRuns f l).map (·.2)).flatten = l := by
  induction l with
  | nil => rfl
  | cons x xs ih =>
    rw [groupRuns]
    cases h : groupRuns f xs with
    | nil =>
      rw [h] at ih
      simp only [List.map_nil, List.flatten_nil] at ih
      simp [← ih]
    | cons kg rest =>
      obtain ⟨k, g⟩ := kg
      rw [h] at ih
      by_cases hf : f x = k
      · simp only [if_pos hf]
        simp only [List.map_cons, List.flatten_cons] at ih ⊢
        rw [List.cons_append, ih]
      · simp only [if_neg hf]
        simp only [List.map_cons, List.flatten_cons] at ih ⊢
        rw [List.singleton_append, ih]

theorem groupRuns_mem [DecidableEq κ] (f : α → κ) {l : List α}
    {kg : κ × List α} (hkg : kg ∈ groupRuns f l) {x : α} (hx : x ∈ kg.2) :
    x ∈ l := by
  rw [← groupRuns_flatten f l, List.mem_flatten]
  exact ⟨kg.2, List.mem_map_of_mem _ hkg, hx⟩

theorem groupRuns_keys [DecidableEq κ] (f : α → κ) (l : List α) :
    ∀ kg ∈ groupRuns f l, kg.2 ≠ [] ∧ ∀ x ∈ kg.2, f x = kg.1 := by
  induction l with
  | nil => simp [groupRuns]
  | cons x xs ih =>
    rw [groupRuns]
    cases h : groupRuns f xs with
    | nil =>
      intro kg hkg
      simp only [List.mem_singleton] at hkg
      subst hkg
      simp
    | cons kg0 rest =>
      obtain ⟨k, g⟩ := kg0
      rw [h] at ih
      by_cases hf : f x = k
      · simp only [if_pos hf]
        intro kg hkg
        rcases List.mem_cons.mp hkg with rfl | hkg
        · refine ⟨by simp, ?_⟩
          intro y hy
          rcases List.mem_cons.mp hy with rfl | hy
          · exact hf
          · exact (ih (k, g) (List.mem_cons_self _ _)).2 y hy
        · exact ih kg (List.mem_cons_of_mem _ hkg)
      · simp only [if_neg hf]
        intro kg hkg
        rcases List.mem_cons.mp hkg with rfl | hkg
        · exact ⟨by simp, by simp⟩
        · exact ih kg hkg

theorem groupRuns_sublist [DecidableEq κ] (f : α → κ) (l : List α) :
    ∀ kg ∈ groupRuns f l, kg.2.Sublist l := by
  induction l with
  | nil => simp [groupRuns]
  | cons x xs ih =>
    rw [groupRuns]
    cases h : groupRuns f xs with
    | nil =>
      intro kg hkg
      simp only [List.mem_singleton] at hkg
      subst hkg
      simpa using List.nil_sublist xs
    | cons kg0 rest =>
      obtain ⟨k, g⟩ := kg0
      rw [h] at ih
      by_cases hf : f x = k
      · simp only [if_pos hf]
        intro kg hkg
        rcases List.mem_cons.mp hkg with rfl | hkg
        · exact (ih (k, g) (List.mem_cons_self _ _)).cons₂ x
        · exact (ih kg (List.mem_cons_of_mem _ hkg)).cons x
      · simp only [if_neg hf]
        intro kg hkg
        rcases List.mem_cons.mp hkg with rfl | hkg
        · simpa using (List.nil_sublist xs).cons₂ x
        · exact (ih kg hkg).cons x

theorem groupRuns_pairwise [DecidableEq κ] (f : α → κ) {R : α → α → Prop}
    {l : List α} (hl : l.Pairwise R) :
    (groupRuns f l).Pairwise fun g h => ∀ x ∈ g.2, ∀ y ∈ h.2, R x y := by
  induction l with
  | nil => simp [groupRuns]
  | cons x xs ihl =>
    rcases List.pairwise_cons.mp hl with ⟨hx, hxs⟩
    have ih := ihl hxs
    rw [groupRuns]
    cases h : groupRuns f xs with
    | nil => simp
    | cons kg0 rest =>
      obtain ⟨k, g⟩ := kg0
      rw [h] at ih
      rcases List.pairwise_cons.mp ih with ⟨ihead, irest⟩
      by_cases hf : f x = k
      · simp only [if_pos hf]
        refine List.pairwise_cons.mpr ⟨?_, irest⟩
        intro kg hkg a ha b hb
        rcases List.mem_cons.mp ha with rfl | ha
        · exact hx b (groupRuns_mem f (h ▸ List.mem_cons_of_mem _ hkg) hb)
        · exact ihead kg hkg a ha b hb
      · simp only [if_neg hf]
        refine List.pairwise_cons.mpr ⟨?_, ih⟩
        intro kg hkg a ha b hb
        rcases List.mem_singleton.mp ha with rfl
        exact hx b (groupRuns_mem f (h ▸ hkg) hb)

theorem groupRuns_chain_ne [DecidableEq κ] (f : α → κ) (l : List α) :
    (groupRuns f l).Chain' fun g h => g.1 ≠ h.1 := by
  induction l with
  | nil => simp [groupRuns]
  | cons x xs ih =>
    rw [groupRuns]
    cases h : groupRuns f xs with
    | nil => simp
    | cons kg0 rest =>
      obtain ⟨k, g⟩ := kg0
      rw [h] at ih
      by_cases hf : f x = k
      · simp only [if_pos hf]
        cases rest with
        | nil => simp
        | cons b t =>
          rw [List.chain'_cons] at ih ⊢
          exact ih
      · simp only [if_neg hf]
        exact List.Chain'.cons hf ih

/-! ## Claim theorems -/

/-- C2: for every stored photo whose `caption`, `location` and `country`
are non-empty (as the store constraints guarantee), `getPhotoAlt` returns
exactly the string `country ++ ", " ++ location ++ " - " ++ caption`, and
that string is non-empty. -/
theorem getPhotoAlt_template_nonempty (p : Photo)
    (hcap : p.caption ≠ "") (hloc : p.location ≠ "") (hcty : p.country ≠ "") :
    getPhotoAlt p = p.country ++ ", " ++ p.location ++ " - " ++ p.caption ∧
      getPhotoAlt p ≠ "" := by
  refine ⟨rfl, ?_⟩
  intro h
  have hlen := congrArg String.length h
  simp only [getPhotoAlt, String.length_append] at hlen
  have h1 : (", " : String).length = 2 := rfl
  have h2 : (" - " : String).length = 3 := rfl
  have h3 : ("" : String).length = 0 := rfl
  omega

/-- Witness for C2, at the concrete photo of the spec scenario. -/
theorem getPhotoAlt_template_nonempty_witness :
    getPhotoAlt (mkPhoto 1 "us-georgia-nature-1.jpg" "nature"
        "Fall colors at sunset" "Northern Georgia" "United States"
        none none none none) =
      "United States" ++ ", " ++ "Northern Georgia" ++ " - " ++
        "Fall colors at sunset" ∧
    getPhotoAlt (mkPhoto 1 "us-georgia-nature-1.jpg" "nature"
        "Fall colors at sunset" "Northern Georgia" "United States"
        none none none none) ≠ "" :=
  getPhotoAlt_template_nonempty _ (by decide) (by decide) (by decide)

/-- C10: when the derived asset path of a photo has no entry in the image
map, `processPhoto` raises no error: it returns the fallback view model
whose `src`, `lightboxSrc` and `originalSrc` all equal the derived path,
whose textual fields come from the photo record, whose aspect ratio is
`1.5`, and whose imported image is absent.  (The embedded `processPhoto`
is a total function, so no exception is possible by construction.) -/
theorem processPhoto_missing_image_fallback
    (imageMap : String → Option ImageMeta)
    (optimize : ImageMeta → Nat → Int → Nat → Option String)
    (includeLightbox : Bool) (w q : Nat) (photo : Photo)
    (h : imageMap (getPhotoPath photo) = none) :
    processPhoto imageMap optimize includeLightbox w q photo =
      { src := getPhotoPath photo
        alt := getPhotoAlt photo
        caption := photo.caption
        location := photo.location
        country := photo.country
        category := photo.category
        aspectRatioVal := 3 / 2
        lightboxSrc := getPhotoPath photo
        originalSrc := getPhotoPath photo
        importedImage := none } := by
  simp only [processPhoto, h]

/-- Witness for C10, with an empty image map and a concrete photo. -/
theorem processPhoto_missing_image_fallback_witness :
    processPhoto (fun _ => none) (fun _ _ _ _ => none) true 1920 85
        (mkPhoto 1 "ship.jpg" "nature" "A ship" "Harbour" "Norway"
          none none none none) =
      { src := getPhotoPath (mkPhoto 1 "ship.jpg" "nature" "A ship" "Harbour"
          "Norway" none none none none)
        alt := getPhotoAlt (mkPhoto 1 "ship.jpg" "nature" "A ship" "Harbour"
          "Norway" none none none none)
        caption := "A ship"
        location := "Harbour"
        country := "Norway"
        category := "nature"
        aspectRatioVal := 3 / 2
        lightboxSrc := getPhotoPath (mkPhoto 1 "ship.jpg" "nature" "A ship"
          "Harbour" "Norway" none none none none)
        originalSrc := getPhotoPath (mkPhoto 1 "ship.jpg" "nature" "A ship"
          "Harbour" "Norway" none none none none)
        importedImage := none } :=
  processPhoto_missing_image_fallback (fun _ => none) (fun _ _ _ _ => none)
    true 1920 85 _ rfl

/-- C4 counterexample: the claim says a category argument outside the enum
makes the category queries fail with `InvalidArgument` rather than return
an empty result.  In the code both queries are total functions of the
bound SQL parameter: on a store with rows (so the nature query is
non-empty) the unrecognized category "portraits" silently yields the empty
list, and no error value exists in the return type. -/
theorem categoryQuery_invalid_returns_empty_counterexample :
    getCategoryFeatured "portraits" sampleStore = [] ∧
      getAllCategoryPhotos "portraits" sampleStore = [] ∧
      getCategoryFeatured "nature" sampleStore ≠ [] := by decide

/-- C4 (amended): the category queries never fail on any category
argument; for an argument outside the enum they return the empty list
(given the schema constraint that stored categories are enum members), and
for an enum category with no matching rows they likewise return the empty
list without error. -/
theorem categoryQueries_total_spec (category : String) (store : List Photo)
    (hcats : ∀ p ∈ store, isValidCategory p.category = true)
    (hbad : isValidCategory category = false) :
    getCategoryFeatured category store = [] ∧
      getAllCategoryPhotos category store = [] ∧
      ∀ c st, (∀ p ∈ st, p.category ≠ c) →
        getCategoryFeatured c st = [] ∧ getAllCategoryPhotos c st = [] := by
  have hfilter : ∀ (q : Photo → Bool), store.filter
      (fun p => p.category == category && q p) = [] := by
    intro q
    rw [List.filter_eq_nil_iff]
    intro p hp hcond
    rw [Bool.and_eq_true] at hcond
    have hpc : p.category = category := by
      simpa using hcond.1
    have := hcats p hp
    rw [hpc, hbad] at this
    exact Bool.false_ne_true this
  have hfilter2 : store.filter (fun p => p.category == category) = [] := by
    rw [List.filter_eq_nil_iff]
    intro p hp hcond
    have hpc : p.category = category := by simpa using hcond
    have := hcats p hp
    rw [hpc, hbad] at this
    exact Bool.false_ne_true this
  refine ⟨?_, ?_, ?_⟩
  · rw [getCategoryFeatured, hfilter]
    rfl
  · rw [getAllCategoryPhotos, hfilter2]
    rfl
  · intro c st hnone
    constructor
    · rw [getCategoryFeatured]
      have : st.filter (fun p => p.category == c && p.category_featured.isSome) = [] := by
        rw [List.filter_eq_nil_iff]
        intro p hp hcond
        rw [Bool.and_eq_true] at hcond
        exact hnone p hp (by simpa using hcond.1)
      rw [this]
      rfl
    · rw [getAllCategoryPhotos]
      have : st.filter (fun p => p.category == c) = [] := by
        rw [List.filter_eq_nil_iff]
        intro p hp hcond
        exact hnone p hp (by simpa using hcond)
      rw [this]
      rfl

/-- Witness for the amended C4, at the unrecognized category "portraits"
against the sample store. -/
theorem categoryQueries_total_spec_witness :
    getCategoryFeatured "portraits" sampleStore = [] ∧
      getAllCategoryPhotos "portraits" sampleStore = [] ∧
      ∀ c st, (∀ p ∈ st, p.category ≠ c) →
        getCategoryFeatured c st = [] ∧ getAllCategoryPhotos c st = [] :=
  categoryQueries_total_spec "portraits" sampleStore (by decide) (by decide)

/-- C3: `getHomepageFeatured` returns only rows with a non-null homepage
priority, in non-decreasing priority order with ties broken by id
ascending (stability of the scan order), and never more than the 7
configured slots, on any store whose rows are in id order. -/
theorem getHomepageFeatured_spec (store : List Photo)
    (hids : store.Pairwise fun a b => a.id < b.id) :
    (getHomepageFeatured store).length ≤ 7 ∧
      (∀ p ∈ getHomepageFeatured store,
        p ∈ store ∧ p.homepage_featured.isSome = true) ∧
      (getHomepageFeatured store).Pairwise fun a b =>
        a.homepage_featured.getD 0 ≤ b.homepage_featured.getD 0 ∧
          (a.homepage_featured = b.homepage_featured → a.id < b.id) := by
  have hfil : (store.filter fun p => p.homepage_featured.isSome).Pairwise
      fun a b => a.id < b.id := hids.filter _
  have hS := sortBy_pairwise_lex leHomepage Photo.id
    (fun a b c h h' => leHomepage_trans a b c h h') leHomepage_total hfil
  have hmem : ∀ p ∈ getHomepageFeatured store,
      p ∈ store ∧ p.homepage_featured.isSome = true := by
    intro p hp
    have hp' : p ∈ sortBy leHomepage
        (store.filter fun p => p.homepage_featured.isSome) :=
      List.take_subset _ _ hp
    have hmf := mem_sortBy.mp hp'
    rw [List.mem_filter] at hmf
    exact hmf
  refine ⟨?_, hmem, ?_⟩
  · rw [getHomepageFeatured, List.length_take]
    exact min_le_left _ _
  · have htake : (getHomepageFeatured store).Pairwise fun a b =>
        leHomepage a b = true ∧ (leHomepage b a = true → a.id < b.id) :=
      hS.sublist (List.take_sublist _ _)
    refine htake.imp_of_mem ?_
    intro a b ha hb hr
    obtain ⟨x, hx⟩ := Option.isSome_iff_exists.mp (hmem a ha).2
    obtain ⟨y, hy⟩ := Option.isSome_iff_exists.mp (hmem b hb).2
    constructor
    · have := hr.1
      rw [leHomepage, hx, hy] at this
      simp only [leOptIntNullsFirst, decide_eq_true_iff] at this
      rw [hx, hy]
      simpa using this
    · intro heq
      apply hr.2
      rw [leHomepage, heq]
      exact leOptIntNullsFirst_refl _

/-- Witness for C3 at the sample store (two featured rows, priorities 1
and 2). -/
theorem getHomepageFeatured_spec_witness :
    (getHomepageFeatured sampleStore).length ≤ 7 ∧
      (∀ p ∈ getHomepageFeatured sampleStore,
        p ∈ sampleStore ∧ p.homepage_featured.isSome = true) ∧
      (getHomepageFeatured sampleStore).Pairwise fun a b =>
        a.homepage_featured.getD 0 ≤ b.homepage_featured.getD 0 ∧
          (a.homepage_featured = b.homepage_featured → a.id < b.id) :=
  getHomepageFeatured_spec sampleStore (by decide)

theorem pairwise_lt_of_le_chain_ne [LinearOrder β] {l : List β}
    (hle : l.Pairwise (· ≤ ·)) (hne : l.Chain' (· ≠ ·)) :
    l.Pairwise (· < ·) := by
  induction l with
  | nil => exact List.Pairwise.nil
  | cons x xs ih =>
    rcases List.pairwise_cons.mp hle with ⟨hx, hxs⟩
    cases xs with
    | nil => simp
    | cons z rest =>
      rw [List.chain'_cons] at hne
      have ihz := ih hxs hne.2
      refine List.pairwise_cons.mpr ⟨?_, ihz⟩
      intro y hy
      rcases List.mem_cons.mp hy with rfl | hy
      · exact lt_of_le_of_ne (hx y (List.mem_cons_self _ _)) hne.1
      · exact lt_of_lt_of_le
          (lt_of_le_of_ne (hx z (List.mem_cons_self _ _)) hne.1)
          (le_of_lt ((List.pairwise_cons.mp ihz).1 y hy))

theorem leCountryRows_le_location {x y : Photo}
    (h : leCountryRows x y = true) : x.location ≤ y.location := by
  rw [leCountryRows, lexLe] at h
  by_cases heq : x.location = y.location
  · exact le_of_eq heq
  · rw [countryRowsKey, countryRowsKey] at h
    simp only [if_neg heq] at h
    exact le_of_lt (ltStrB_iff.mp h)

theorem leCountryRows_eq_location {x y : Photo}
    (h : x.location = y.location) :
    leCountryRows x y = leOptStrDesc x.date y.date := by
  rw [leCountryRows, lexLe, countryRowsKey, countryRowsKey]
  simp only [if_pos h]

theorem dateDescThenId_of {a b : Photo}
    (hle : leOptStrDesc a.date b.date = true)
    (htie : leOptStrDesc b.date a.date = true → a.id < b.id) :
    dateDescThenId a b := by
  by_cases heq : a.date = b.date
  · exact Or.inl ⟨heq, htie (heq ▸ leOptStrDesc_refl _)⟩
  · rw [leOptStrDesc, if_neg heq] at hle
    cases hb : b.date with
    | none =>
      rw [hb] at hle
      cases ha : a.date with
      | none => exact absurd (ha.trans hb.symm) heq
      | some s => exact Or.inr (Or.inl ⟨hb, by simp [ha]⟩)
    | some t =>
      rw [hb] at hle
      cases ha : a.date with
      | none =>
        rw [ha] at hle
        exact absurd hle (by simp [ltOptStrNullsFirst])
      | some s =>
        rw [ha] at hle
        simp only [ltOptStrNullsFirst] at hle
        exact Or.inr (Or.inr ⟨s, t, ha, hb, ltStrB_iff.mp hle⟩)

/-- C6: `getCountryPhotos` returns exactly the rows of the given country;
grouped by location (grouping modelled from the spec), groups are in
strictly increasing alphabetical order of location, every group is
non-empty and carries its members' location as its name, and within each
group rows are ordered by date descending (null dates last) with ties
broken by id. -/
theorem getCountryPhotos_grouping_spec (country : String) (store : List Photo)
    (hids : store.Pairwise fun a b => a.id < b.id) :
    (∀ p, p ∈ getCountryPhotos country store ↔ p ∈ store ∧ p.country = country) ∧
      ((groupByLocation (getCountryPhotos country store)).map (·.2)).flatten =
        getCountryPhotos country store ∧
      (∀ g ∈ groupByLocation (getCountryPhotos country store),
        g.2 ≠ [] ∧ ∀ p ∈ g.2, p.location = g.1) ∧
      ((groupByLocation (getCountryPhotos country store)).map (·.1)).Pairwise
        (· < ·) ∧
      (∀ g ∈ groupByLocation (getCountryPhotos country store),
        g.2.Pairwise dateDescThenId) := by
  have hrows : (getCountryPhotos country store).Pairwise fun a b =>
      leCountryRows a b = true ∧ (leCountryRows b a = true → a.id < b.id) := by
    rw [getCountryPhotos]
    exact sortBy_pairwise_lex leCountryRows Photo.id
      (fun a b c h h' => leCountryRows_trans a b c h h')
      leCountryRows_total (hids.filter _)
  have hkeys := groupRuns_keys (fun p : Photo => p.location)
    (getCountryPhotos country store)
  refine ⟨?_, ?_, ?_, ?_, ?_⟩
  · intro p
    rw [getCountryPhotos, mem_sortBy, List.mem_filter]
    simp
  · exact groupRuns_flatten _ _
  · exact hkeys
  · have hGP := groupRuns_pairwise (fun p : Photo => p.location) hrows
    have hle : (groupByLocation (getCountryPhotos country store)).Pairwise
        fun g h => g.1 ≤ h.1 := by
      refine hGP.imp_of_mem ?_
      intro g h hg hh hcross
      obtain ⟨x, hx⟩ := List.exists_mem_of_ne_nil _ (hkeys g hg).1
      obtain ⟨y, hy⟩ := List.exists_mem_of_ne_nil _ (hkeys h hh).1
      have hxl := (hkeys g hg).2 x hx
      have hyl := (hkeys h hh).2 y hy
      rw [← hxl, ← hyl]
      exact leCountryRows_le_location (hcross x hx y hy).1
    have hne : (groupByLocation (getCountryPhotos country store)).Chain'
        fun g h => g.1 ≠ h.1 := groupRuns_chain_ne _ _
    refine pairwise_lt_of_le_chain_ne ?_ ?_
    · exact List.pairwise_map.mpr hle
    · exact (List.chain'_map _).mpr hne
  · intro g hg
    have hsub := groupRuns_sublist (fun p : Photo => p.location)
      (getCountryPhotos country store) g hg
    have hpair := hrows.sublist hsub
    refine hpair.imp_of_mem ?_
    intro a b ha hb hr
    have hal := (hkeys g hg).2 a ha
    have hbl := (hkeys g hg).2 b hb
    have hloc : a.location = b.location := hal.trans hbl.symm
    refine dateDescThenId_of ?_ ?_
    · rw [← leCountryRows_eq_location hloc]
      exact hr.1
    · intro ht
      apply hr.2
      rw [leCountryRows_eq_location hloc.symm]
      exact ht

/-- Witness for C6: the Turkey scenario of the spec, where the groups come
out as Cappadocia before Istanbul. -/
theorem getCountryPhotos_grouping_spec_witness :
    (∀ p, p ∈ getCountryPhotos "Turkey" sampleStore ↔
      p ∈ sampleStore ∧ p.country = "Turkey") ∧
      ((groupByLocation (getCountryPhotos "Turkey" sampleStore)).map (·.2)).flatten =
        getCountryPhotos "Turkey" sampleStore ∧
      (∀ g ∈ groupByLocation (getCountryPhotos "Turkey" sampleStore),
        g.2 ≠ [] ∧ ∀ p ∈ g.2, p.location = g.1) ∧
      ((groupByLocation (getCountryPhotos "Turkey" sampleStore)).map (·.1)).Pairwise
        (· < ·) ∧
      (∀ g ∈ groupByLocation (getCountryPhotos "Turkey" sampleStore),
        g.2.Pairwise dateDescThenId) :=
  getCountryPhotos_grouping_spec "Turkey" sampleStore (by decide)

theorem leCategoryRows_eq_sub {a b : Photo}
    (h : a.sub_category = b.sub_category) :
    leCategoryRows a b = leOptStrDesc a.date b.date := by
  have hrank : subNullRank a = subNullRank b := by
    rw [subNullRank, subNullRank, h]
  rw [leCategoryRows, lexLe, categoryRowsKey, categoryRowsKey]
  simp only [if_pos hrank, lexLe, if_pos h]

theorem leCategoryRows_sub_facts {p q : Photo}
    (h : leCategoryRows p q = true) :
    (p.sub_category = none → q.sub_category = none) ∧
      ∀ s t, p.sub_category = some s → q.sub_category = some t → s ≤ t := by
  constructor
  · intro hp
    cases hq : q.sub_category with
    | none => rfl
    | some t =>
      exfalso
      rw [leCategoryRows, lexLe, categoryRowsKey, categoryRowsKey] at h
      have h1 : subNullRank p = 1 := by rw [subNullRank, hp]
      have h0 : subNullRank q = 0 := by rw [subNullRank, hq]
      rw [h1, h0] at h
      simp [ltNat] at h
  · intro s t hs ht
    rw [leCategoryRows, lexLe, categoryRowsKey, categoryRowsKey] at h
    have h0 : subNullRank p = 0 := by rw [subNullRank, hs]
    have h0' : subNullRank q = 0 := by rw [subNullRank, ht]
    rw [h0, h0'] at h
    simp only [if_pos rfl, lexLe] at h
    by_cases hsub : p.sub_category = q.sub_category
    · have : s = t := by
        rw [hs, ht] at hsub
        exact Option.some.inj hsub
      exact le_of_eq this
    · simp only [if_neg hsub] at h
      rw [hs, ht] at h
      simp only [ltOptStrNullsFirst] at h
      exact le_of_lt (ltStrB_iff.mp h)

/-- C5: `getAllCategoryPhotos` returns exactly the rows of the category;
grouped by `sub_category` (grouping modelled from the spec, rows without a
subcategory displayed under the literal name "Other"), every group is
non-empty and homogeneous in its subcategory, a group containing rows
without a subcategory never precedes one with named subcategories (the
"Other" bucket is last), named groups are in non-decreasing alphabetical
order, and within each group rows are ordered by date descending (null
dates last) with ties broken by id. -/
theorem getAllCategoryPhotos_grouping_spec (category : String)
    (store : List Photo) (hids : store.Pairwise fun a b => a.id < b.id) :
    (∀ p, p ∈ getAllCategoryPhotos category store ↔
        p ∈ store ∧ p.category = category) ∧
      ((groupBySubCategory (getAllCategoryPhotos category store)).map
          (·.2)).flatten = getAllCategoryPhotos category store ∧
      (∀ g ∈ groupBySubCategory (getAllCategoryPhotos category store),
        g.2 ≠ [] ∧ (∀ p ∈ g.2, p.sub_category.getD "Other" = g.1) ∧
          ∀ p ∈ g.2, ∀ q ∈ g.2, p.sub_category = q.sub_category) ∧
      (groupBySubCategory (getAllCategoryPhotos category store)).Pairwise
        (fun g h => ∀ p ∈ g.2, ∀ q ∈ h.2,
          (p.sub_category = none → q.sub_category = none) ∧
            ∀ s t, p.sub_category = some s → q.sub_category = some t →
              s ≤ t) ∧
      ∀ g ∈ groupBySubCategory (getAllCategoryPhotos category store),
        g.2.Pairwise dateDescThenId := by
  have hrows : (getAllCategoryPhotos category store).Pairwise fun a b =>
      leCategoryRows a b = true ∧ (leCategoryRows b a = true → a.id < b.id) := by
    rw [getAllCategoryPhotos]
    exact sortBy_pairwise_lex leCategoryRows Photo.id
      (fun a b c h h' => leCategoryRows_trans a b c h h')
      leCategoryRows_total (hids.filter _)
  have hkeys := groupRuns_keys (fun p : Photo => p.sub_category)
    (getAllCategoryPhotos category store)
  refine ⟨?_, ?_, ?_, ?_, ?_⟩
  · intro p
    rw [getAllCategoryPhotos, mem_sortBy, List.mem_filter]
    simp
  · rw [groupBySubCategory, List.map_map]
    exact groupRuns_flatten _ _
  · intro g hg
    rw [groupBySubCategory] at hg
    obtain ⟨g0, hg0, rfl⟩ := List.mem_map.mp hg
    refine ⟨(hkeys g0 hg0).1, ?_, ?_⟩
    · intro p hp
      have := (hkeys g0 hg0).2 p hp
      simp only [this]
    · intro p hp q hq
      exact ((hkeys g0 hg0).2 p hp).trans ((hkeys g0 hg0).2 q hq).symm
  · rw [groupBySubCategory]
    rw [List.pairwise_map]
    have hGP := groupRuns_pairwise (fun p : Photo => p.sub_category) hrows
    refine hGP.imp ?_
    intro g h hcross p hp q hq
    exact leCategoryRows_sub_facts (hcross p hp q hq).1
  · intro g hg
    rw [groupBySubCategory] at hg
    obtain ⟨g0, hg0, rfl⟩ := List.mem_map.mp hg
    have hsub := groupRuns_sublist (fun p : Photo => p.sub_category)
      (getAllCategoryPhotos category store) g0 hg0
    have hpair := hrows.sublist hsub
    refine hpair.imp_of_mem ?_
    intro a b ha hb hr
    have hsubeq : a.sub_category = b.sub_category :=
      ((hkeys g0 hg0).2 a ha).trans ((hkeys g0 hg0).2 b hb).symm
    refine dateDescThenId_of ?_ ?_
    · rw [← leCategoryRows_eq_sub hsubeq]
      exact hr.1
    · intro ht
      apply hr.2
      rw [leCategoryRows_eq_sub hsubeq.symm]
      exact ht

/-- Witness for C5 at the nature category of the sample store (one named
group "Coast" and one "Other" bucket). -/
theorem getAllCategoryPhotos_grouping_spec_witness :
    (∀ p, p ∈ getAllCategoryPhotos "nature" sampleStore ↔
        p ∈ sampleStore ∧ p.category = "nature") ∧
      ((groupBySubCategory (getAllCategoryPhotos "nature" sampleStore)).map
          (·.2)).flatten = getAllCategoryPhotos "nature" sampleStore ∧
      (∀ g ∈ groupBySubCategory (getAllCategoryPhotos "nature" sampleStore),
        g.2 ≠ [] ∧ (∀ p ∈ g.2, p.sub_category.getD "Other" = g.1) ∧
          ∀ p ∈ g.2, ∀ q ∈ g.2, p.sub_category = q.sub_category) ∧
      (groupBySubCategory (getAllCategoryPhotos "nature" sampleStore)).Pairwise
        (fun g h => ∀ p ∈ g.2, ∀ q ∈ h.2,
          (p.sub_category = none → q.sub_category = none) ∧
            ∀ s t, p.sub_category = some s → q.sub_category = some t →
              s ≤ t) ∧
      ∀ g ∈ groupBySubCategory (getAllCategoryPhotos "nature" sampleStore),
        g.2.Pairwise dateDescThenId :=
  getAllCategoryPhotos_grouping_spec "nature" sampleStore (by decide)

theorem importRows_length (now : String) (sid : Nat) (rows : List CSVRow) :
    (importRows now sid rows).length = rows.length := by
  simp [importRows]

theorem jsBlank_false {o : Option String} (h : jsBlank o = false) :
    isEmptyStr (trimJS (o.getD "")) = false := by
  cases o with
  | none => simp [jsBlank] at h
  | some s => simpa [jsBlank] using h

theorem mem_enum_snd {l : List α} {ir : Nat × α} (h : ir ∈ l.enum) :
    ir.2 ∈ l := by
  rw [← List.enum_map_snd l]
  exact List.mem_map_of_mem _ h

theorem exists_enum_of_mem {l : List α} {r : α} (h : r ∈ l) :
    ∃ ir ∈ l.enum, ir.2 = r := by
  rw [← List.enum_map_snd l] at h
  obtain ⟨ir, hir, heq⟩ := List.mem_map.mp h
  exact ⟨ir, hir, heq⟩

theorem validateAll_nil_blankfree {fe : String → String → Bool}
    {rows : List CSVRow} (h : validateAll fe rows = []) :
    ∀ r ∈ rows, jsBlank r.filename = false := by
  intro r hr
  obtain ⟨ir, hir, rfl⟩ := exists_enum_of_mem hr
  have hrow : validateRow fe ir.2 ir.1 = [] := by
    rw [validateAll] at h
    exact List.flatMap_eq_nil_iff.mp h ir hir
  rw [validateRow] at hrow
  have hfr : filenameRule ir.2 (ir.1 + 2) = [] :=
    List.flatten_eq_nil_iff.mp hrow _ (by simp [ruleResults])
  by_contra hb
  rw [Bool.not_eq_false] at hb
  rw [filenameRule, if_pos hb] at hfr
  exact absurd hfr (by simp)

theorem dupInCSVAux_nil : ∀ (irs : List (Nat × CSVRow)) (seen : List String),
    dupInCSVAux seen irs = [] →
    (∀ ir ∈ irs, isEmptyStr (trimJS (ir.2.filename.getD "")) = false) →
    (irs.map fun ir => trimJS (ir.2.filename.getD "")).Pairwise (· ≠ ·) ∧
      ∀ ir ∈ irs, trimJS (ir.2.filename.getD "") ∉ seen := by
  intro irs
  induction irs with
  | nil =>
    intro seen _ _
    exact ⟨List.Pairwise.nil, by simp⟩
  | cons ir rest ih =>
    intro seen h hnb
    rw [dupInCSVAux] at h
    have hne := hnb ir (List.mem_cons_self _ _)
    rw [if_neg (by simp [hne])] at h
    rcases List.append_eq_nil.mp h with ⟨hcontains, hrest⟩
    have hcf : seen.contains (trimJS (ir.2.filename.getD "")) = false := by
      by_contra hc
      rw [Bool.not_eq_false] at hc
      rw [if_pos hc] at hcontains
      exact absurd hcontains (by simp)
    obtain ⟨hpw, hseen⟩ := ih (trimJS (ir.2.filename.getD "") :: seen) hrest
      fun x hx => hnb x (List.mem_cons_of_mem _ hx)
    refine ⟨List.pairwise_cons.mpr ⟨?_, hpw⟩, ?_⟩
    · intro y hy
      obtain ⟨jr, hjr, rfl⟩ := List.mem_map.mp hy
      intro heq
      exact hseen jr hjr (by rw [← heq]; exact List.mem_cons_self _ _)
    · intro jr hjr
      rcases List.mem_cons.mp hjr with rfl | hjr
      · intro hmem
        have : seen.contains (trimJS (jr.2.filename.getD "")) = true :=
          List.elem_iff.mpr hmem
        rw [this] at hcf
        exact absurd hcf (by simp)
      · exact fun hmem => hseen jr hjr (List.mem_cons_of_mem _ hmem)

theorem dupInDbAux_nil {store : List Photo} :
    ∀ irs : List (Nat × CSVRow), dupInDbAux store irs = [] →
    ∀ ir ∈ irs, isEmptyStr (trimJS (ir.2.filename.getD "")) = false →
    (store.any fun q => q.filename == trimJS (ir.2.filename.getD "")) = false := by
  intro irs
  induction irs with
  | nil => simp
  | cons ir rest ih =>
    intro h jr hjr hne
    rw [dupInDbAux] at h
    rcases List.append_eq_nil.mp h with ⟨hhead, hrest⟩
    rcases List.mem_cons.mp hjr with rfl | hjr
    · rw [if_neg (by simp [hne])] at hhead
      by_contra hany
      rw [Bool.not_eq_false] at hany
      rw [if_pos hany] at hhead
      exact absurd hhead (by simp)
    · exact ih hrest jr hjr hne

theorem importRows_map_filename (now : String) (sid : Nat)
    (rows : List CSVRow) :
    (importRows now sid rows).map (·.filename) =
      rows.enum.map fun ir => trimJS (ir.2.filename.getD "") := by
  rw [importRows, List.map_map]
  rfl

theorem filenamesDistinct_map {st : List Photo} {f : Photo → Photo}
    (hf : ∀ p, (f p).filename = p.filename) (h : filenamesDistinct st) :
    filenamesDistinct (st.map f) := by
  rw [filenamesDistinct, List.pairwise_map]
  refine h.imp ?_
  intro a b hab
  rw [hf a, hf b]
  exact hab

theorem isEmpty_false_of_ne_nil {l : List β} (h : l ≠ []) :
    l.isEmpty = false := by
  cases l with
  | nil => exact absurd rfl h
  | cons a t => rfl

/-- C1: the CSV import is atomic.  Whenever any row fails validation or
duplicates a filename (inside the batch or against the store), the whole
batch is rejected with a non-empty error list and the store is unchanged;
when every row is valid and duplicate-free, the committed
(non-dry-run) import inserts exactly all rows, appended in input
order. -/
theorem importPhotos_batch_atomic (fe : String → String → Bool)
    (rows : List CSVRow) (dryRun : Bool) (now : String) (store : List Photo) :
    (validateAll fe rows ≠ [] ∨ checkDuplicates rows store ≠ [] →
      (∃ errs, errs ≠ [] ∧
        (importPhotos fe rows dryRun now store).1 = some errs) ∧
      (importPhotos fe rows dryRun now store).2 = store) ∧
    (validateAll fe rows = [] → checkDuplicates rows store = [] →
      (importPhotos fe rows false now store).1 = none ∧
      (importPhotos fe rows false now store).2 =
        store ++ importRows now (maxId store + 1) rows ∧
      (importPhotos fe rows false now store).2.length =
        store.length + rows.length) := by
  constructor
  · intro hfail
    by_cases hv : validateAll fe rows = []
    · have hd : checkDuplicates rows store ≠ [] := by
        rcases hfail with h | h
        · exact absurd hv h
        · exact h
      have heq : importPhotos fe rows dryRun now store =
          (some (checkDuplicates rows store), store) := by
        rw [importPhotos]
        simp [hv, isEmpty_false_of_ne_nil hd]
      rw [heq]
      exact ⟨⟨checkDuplicates rows store, hd, rfl⟩, rfl⟩
    · have heq : importPhotos fe rows dryRun now store =
          (some (validateAll fe rows), store) := by
        rw [importPhotos]
        simp [isEmpty_false_of_ne_nil hv]
      rw [heq]
      exact ⟨⟨validateAll fe rows, hv, rfl⟩, rfl⟩
  · intro hv hd
    have heq : importPhotos fe rows false now store =
        (none, store ++ importRows now (maxId store + 1) rows) := by
      rw [importPhotos]
      simp [hv, hd]
    rw [heq]
    refine ⟨rfl, rfl, ?_⟩
    rw [List.length_append, importRows_length]

/-- Witness for C1: a batch with one blank row is rejected leaving the
sample store unchanged, and a valid one-row batch is appended whole. -/
theorem importPhotos_batch_atomic_witness :
    ((importPhotos (fun _ _ => true)
        [⟨none, none, none, none, none, none, none, none, none⟩]
        false "t" sampleStore).2 = sampleStore) ∧
    ((importPhotos (fun _ _ => true)
        [⟨some "new.jpg", some "nature", some "cap", some "loc", some "ctry",
          none, none, none, none⟩]
        false "t" sampleStore).2 =
      sampleStore ++ importRows "t" (maxId sampleStore + 1)
        [⟨some "new.jpg", some "nature", some "cap", some "loc", some "ctry",
          none, none, none, none⟩]) :=
  ⟨((importPhotos_batch_atomic (fun _ _ => true)
      [⟨none, none, none, none, none, none, none, none, none⟩]
      false "t" sampleStore).1 (Or.inl (by decide))).2,
   ((importPhotos_batch_atomic (fun _ _ => true)
      [⟨some "new.jpg", some "nature", some "cap", some "loc", some "ctry",
        none, none, none, none⟩]
      false "t" sampleStore).2 (by decide) (by decide)).2.1⟩

/-- C8: filename uniqueness is an invariant.  On a store with distinct
filenames containing the new photo's filename already, a single insert
fails with `ConstraintViolation` leaving the store unchanged with exactly
one row carrying that filename; and every mutation of the embedding
(single insert, CSV batch import, CSV batch update) preserves filename
distinctness. -/
theorem filename_unique_invariant (store : List Photo) (p : Photo)
    (hdist : filenamesDistinct store)
    (hpresent : ∃ q ∈ store, q.filename = p.filename) :
    (insertPhoto store p).1 = some DbError.constraintViolation ∧
      (insertPhoto store p).2 = store ∧
      (insertPhoto store p).2.countP (fun q => q.filename == p.filename) = 1 ∧
      (∀ st q, filenamesDistinct st → filenamesDistinct (insertPhoto st q).2) ∧
      (∀ fe rows dryRun now st, filenamesDistinct st →
        filenamesDistinct (importPhotos fe rows dryRun now st).2) ∧
      (∀ fe avail rows dryRun now st, filenamesDistinct st →
        filenamesDistinct (updatePhotos fe avail rows dryRun now st).2) := by
  have hany : (store.any fun q => q.filename == p.filename) = true := by
    rw [List.any_eq_true]
    obtain ⟨q, hq, hfq⟩ := hpresent
    exact ⟨q, hq, by simp [hfq]⟩
  have hcount : ∀ (l : List Photo), l.Pairwise (fun a b => a.filename ≠ b.filename) →
      (∃ q ∈ l, q.filename = p.filename) →
      l.countP (fun q => q.filename == p.filename) = 1 := by
    intro l
    induction l with
    | nil => simp
    | cons a t ih =>
      intro hpw hex
      rcases List.pairwise_cons.mp hpw with ⟨ha, ht⟩
      obtain ⟨q, hq, hfq⟩ := hex
      rcases List.mem_cons.mp hq with rfl | hq
      · rw [List.countP_cons, if_pos (by simp [hfq])]
        have : t.countP (fun r => r.filename == p.filename) = 0 := by
          rw [List.countP_eq_zero]
          intro b hb
          simp only [beq_iff_eq]
          rw [← hfq]
          exact fun hh => ha b hb hh.symm
        omega
      · rw [List.countP_cons, if_neg ?_]
        · rw [ih ht ⟨q, hq, hfq⟩]
        · simp only [beq_iff_eq]
          rw [← hfq]
          exact fun hh => ha q hq hh
  refine ⟨?_, ?_, ?_, ?_, ?_, ?_⟩
  · rw [insertPhoto, if_pos hany]
  · rw [insertPhoto, if_pos hany]
  · rw [insertPhoto, if_pos hany]
    exact hcount store hdist hpresent
  · intro st q hst
    rw [insertPhoto]
    by_cases h1 : (st.any fun r => r.filename == q.filename) = true
    · rw [if_pos h1]
      exact hst
    · rw [if_neg h1]
      by_cases h2 : rowSatisfiesSchema q = true
      · rw [if_pos h2]
        rw [filenamesDistinct, List.pairwise_append]
        refine ⟨hst, List.pairwise_singleton _ _, ?_⟩
        intro a ha b hb
        rcases List.mem_singleton.mp hb with rfl
        have h1' : (st.any fun r => r.filename == b.filename) = false := by
          simpa using h1
        have := List.any_eq_false.mp h1' a ha
        simpa using this
      · rw [if_neg h2]
        exact hst
  · intro fe rows dryRun now st hst
    by_cases hv : validateAll fe rows = []
    · by_cases hd : checkDuplicates rows st = []
      · cases dryRun with
        | true =>
          have heq : importPhotos fe rows true now st = (none, st) := by
            rw [importPhotos]
            simp [hv, hd]
          rw [heq]
          exact hst
        | false =>
          have heq : importPhotos fe rows false now st =
              (none, st ++ importRows now (maxId st + 1) rows) := by
            rw [importPhotos]
            simp [hv, hd]
          rw [heq]
          have hnbrows := validateAll_nil_blankfree hv
          have hnb : ∀ ir ∈ rows.enum,
              isEmptyStr (trimJS (ir.2.filename.getD "")) = false :=
            fun ir hir => jsBlank_false (hnbrows ir.2 (mem_enum_snd hir))
          rcases List.append_eq_nil.mp hd with ⟨hcsv, hdb⟩
          obtain ⟨hpwmap, -⟩ := dupInCSVAux_nil rows.enum [] hcsv hnb
          rw [filenamesDistinct, List.pairwise_append]
          refine ⟨hst, ?_, ?_⟩
          · have hmap : ((importRows now (maxId st + 1) rows).map
                (·.filename)).Pairwise (· ≠ ·) := by
              rw [importRows_map_filename]
              exact hpwmap
            rw [List.pairwise_map] at hmap
            exact hmap
          · intro a ha b hb
            have hbf : b.filename ∈ rows.enum.map
                fun ir => trimJS (ir.2.filename.getD "") := by
              rw [← importRows_map_filename now (maxId st + 1) rows]
              exact List.mem_map_of_mem _ hb
            obtain ⟨ir, hir, hireq⟩ := List.mem_map.mp hbf
            have hanyf := dupInDbAux_nil rows.enum hdb ir hir (hnb ir hir)
            have hne := List.any_eq_false.mp hanyf a ha
            intro heqf
            apply hne
            rw [hireq, ← heqf]
            simp
      · have heq : importPhotos fe rows dryRun now st =
            (some (checkDuplicates rows st), st) := by
          rw [importPhotos]
          simp [hv, isEmpty_false_of_ne_nil hd]
        rw [heq]
        exact hst
    · have heq : importPhotos fe rows dryRun now st =
          (some (validateAll fe rows), st) := by
        rw [importPhotos]
        simp [isEmpty_false_of_ne_nil hv]
      rw [heq]
      exact hst
  · intro fe avail rows dryRun now st hst
    have hfold : ∀ (rs : List URow) (s : List Photo), filenamesDistinct s →
        filenamesDistinct (rs.foldl
          (fun st' r => applyRowUpdate avail now r st') s) := by
      intro rs
      induction rs with
      | nil => exact fun s hs => hs
      | cons r rest ih =>
        intro s hs
        rw [List.foldl_cons]
        refine ih _ ?_
        rw [applyRowUpdate]
        by_cases hop : opHasFields (buildOp avail r) = true
        · rw [if_pos hop]
          refine filenamesDistinct_map ?_ hs
          intro q
          by_cases hm : rowMatches r q = true
          · rw [if_pos hm]
            rfl
          · rw [if_neg hm]
        · rw [if_neg hop]
          exact hs
    by_cases hv : (rows.enum.flatMap fun ir => validateURow fe avail ir.2 ir.1) = []
    · by_cases he : checkPhotosExist st rows.enum = []
      · cases dryRun with
        | true =>
          have heq : updatePhotos fe avail rows true now st = (none, st) := by
            rw [updatePhotos]
            simp [hv, he]
          rw [heq]
          exact hst
        | false =>
          have heq : updatePhotos fe avail rows false now st =
              (none, rows.foldl
                (fun st' r => applyRowUpdate avail now r st') st) := by
            rw [updatePhotos]
            simp [hv, he]
          rw [heq]
          exact hfold rows st hst
      · have heq : updatePhotos fe avail rows dryRun now st =
            (some (checkPhotosExist st rows.enum), st) := by
          rw [updatePhotos]
          simp [hv, isEmpty_false_of_ne_nil he]
        rw [heq]
        exact hst
    · have heq : updatePhotos fe avail rows dryRun now st =
          (some (rows.enum.flatMap fun ir => validateURow fe avail ir.2 ir.1),
            st) := by
        rw [updatePhotos]
        simp [isEmpty_false_of_ne_nil hv]
      rw [heq]
      exact hst

theorem filenameRule_row {r : CSVRow} {n : Nat} {e : ValidationError}
    (h : e ∈ filenameRule r n) : e.row = n := by
  rw [filenameRule] at h
  split at h
  · rcases List.mem_singleton.mp h with rfl
    rfl
  · split at h
    · exact absurd h (List.not_mem_nil e)
    · rcases List.mem_singleton.mp h with rfl
      rfl

theorem categoryRule_row {r : CSVRow} {n : Nat} {e : ValidationError}
    (h : e ∈ categoryRule r n) : e.row = n := by
  rw [categoryRule] at h
  split at h
  · rcases List.mem_singleton.mp h with rfl
    rfl
  · split at h
    · exact absurd h (List.not_mem_nil e)
    · rcases List.mem_singleton.mp h with rfl
      rfl

theorem captionRule_row {r : CSVRow} {n : Nat} {e : ValidationError}
    (h : e ∈ captionRule r n) : e.row = n := by
  rw [captionRule] at h
  split at h
  · rcases List.mem_singleton.mp h with rfl
    rfl
  · exact absurd h (List.not_mem_nil e)

theorem locationRule_row {r : CSVRow} {n : Nat} {e : ValidationError}
    (h : e ∈ locationRule r n) : e.row = n := by
  rw [locationRule] at h
  split at h
  · rcases List.mem_singleton.mp h with rfl
    rfl
  · exact absurd h (List.not_mem_nil e)

theorem countryRule_row {r : CSVRow} {n : Nat} {e : ValidationError}
    (h : e ∈ countryRule r n) : e.row = n := by
  rw [countryRule] at h
  split at h
  · rcases List.mem_singleton.mp h with rfl
    rfl
  · exact absurd h (List.not_mem_nil e)

theorem dateRule_row {r : CSVRow} {n : Nat} {e : ValidationError}
    (h : e ∈ dateRule r n) : e.row = n := by
  rw [dateRule] at h
  split at h
  · exact absurd h (List.not_mem_nil e)
  · split at h
    · exact absurd h (List.not_mem_nil e)
    · split at h
      · exact absurd h (List.not_mem_nil e)
      · rcases List.mem_singleton.mp h with rfl
        rfl

theorem homepageFeaturedRule_row {r : CSVRow} {n : Nat} {e : ValidationError}
    (h : e ∈ homepageFeaturedRule r n) : e.row = n := by
  rw [homepageFeaturedRule] at h
  split at h
  · exact absurd h (List.not_mem_nil e)
  · split at h
    · exact absurd h (List.not_mem_nil e)
    · split at h
      · rcases List.mem_singleton.mp h with rfl
        rfl
      · split at h
        · rcases List.mem_singleton.mp h with rfl
          rfl
        · exact absurd h (List.not_mem_nil e)

theorem categoryFeaturedRule_row {r : CSVRow} {n : Nat} {e : ValidationError}
    (h : e ∈ categoryFeaturedRule r n) : e.row = n := by
  rw [categoryFeaturedRule] at h
  split at h
  · exact absurd h (List.not_mem_nil e)
  · split at h
    · exact absurd h (List.not_mem_nil e)
    · split at h
      · rcases List.mem_singleton.mp h with rfl
        rfl
      · split at h
        · rcases List.mem_singleton.mp h with rfl
          rfl
        · exact absurd h (List.not_mem_nil e)

theorem fileExistsRule_row {fe : String → String → Bool} {r : CSVRow}
    {n : Nat} {e : ValidationError} (h : e ∈ fileExistsRule fe r n) :
    e.row = n := by
  rw [fileExistsRule] at h
  split at h
  · split at h
    · exact absurd h (List.not_mem_nil e)
    · rcases List.mem_singleton.mp h with rfl
      rfl
  · exact absurd h (List.not_mem_nil e)

/-- C9: one validation pass over a batch is complete and
order-insensitive.  Every violation found in any row appears in the
batch-wide report; every reported error of row `i` carries the CSV line
number `i + 2` (the 1-based line number counting the header) together
with its field and message; and permuting the independent field rules
permutes nothing but the order of the collected list — the reported
multiset of errors is unchanged, so validation never stops at the first
violation. -/
theorem validation_complete_spec (fe : String → String → Bool)
    (rows : List CSVRow) :
    (∀ (i : Nat) (hi : i < rows.length) (e : ValidationError),
      e ∈ validateRow fe rows[i] i → e ∈ validateAll fe rows) ∧
      (∀ (r : CSVRow) (i : Nat) (e : ValidationError),
        e ∈ validateRow fe r i → e.row = i + 2) ∧
      ∀ (r : CSVRow) (i : Nat) (l2 : List (List ValidationError)),
        l2.Perm (ruleResults fe r (i + 2)) →
          l2.flatten.Perm (validateRow fe r i) := by
  refine ⟨?_, ?_, ?_⟩
  · intro i hi e he
    rw [validateAll]
    rw [List.mem_flatMap]
    refine ⟨(i, rows[i]), ?_, he⟩
    have hlen : i < rows.enum.length := by
      rw [List.enum_length]
      exact hi
    have := List.getElem_enum rows i hlen
    rw [← this]
    exact List.getElem_mem hlen
  · intro r i e he
    rw [validateRow] at he
    obtain ⟨l, hl, hel⟩ := List.mem_flatten.mp he
    simp only [ruleResults, List.mem_cons, List.not_mem_nil, or_false] at hl
    rcases hl with rfl | rfl | rfl | rfl | rfl | rfl | rfl | rfl | rfl
    · exact filenameRule_row hel
    · exact categoryRule_row hel
    · exact captionRule_row hel
    · exact locationRule_row hel
    · exact countryRule_row hel
    · exact dateRule_row hel
    · exact homepageFeaturedRule_row hel
    · exact categoryFeaturedRule_row hel
    · exact fileExistsRule_row hel
  · intro r i l2 hperm
    rw [validateRow]
    exact hperm.flatten

/-- Witness for C9: a row violating the category rule, checked in a
one-row batch; the error is reported batch-wide with line number 2, and
reversing the rule order permutes the same error multiset. -/
theorem validation_complete_spec_witness :
    (⟨2, "category", "Must be one of: nature, street, concert"⟩ :
        ValidationError) ∈ validateAll (fun _ _ => false)
        [⟨some "x.jpg", some "bogus", some "c", some "l", some "co",
          none, none, none, none⟩] ∧
      (⟨2, "category", "Must be one of: nature, street, concert"⟩ :
        ValidationError).row = 0 + 2 ∧
      ((ruleResults (fun _ _ => false)
          ⟨some "x.jpg", some "bogus", some "c", some "l", some "co",
            none, none, none, none⟩ (0 + 2)).reverse.flatten).Perm
        (validateRow (fun _ _ => false)
          ⟨some "x.jpg", some "bogus", some "c", some "l", some "co",
            none, none, none, none⟩ 0) :=
  ⟨(validation_complete_spec (fun _ _ => false)
      [⟨some "x.jpg", some "bogus", some "c", some "l", some "co",
        none, none, none, none⟩]).1 0 (by decide) _ (by decide),
   (validation_complete_spec (fun _ _ => false)
      [⟨some "x.jpg", some "bogus", some "c", some "l", some "co",
        none, none, none, none⟩]).2.1
     ⟨some "x.jpg", some "bogus", some "c", some "l", some "co",
       none, none, none, none⟩ 0 _ (by decide),
   (validation_complete_spec (fun _ _ => false)
      [⟨some "x.jpg", some "bogus", some "c", some "l", some "co",
        none, none, none, none⟩]).2.2
     ⟨some "x.jpg", some "bogus", some "c", some "l", some "co",
       none, none, none, none⟩ 0 _ (by decide)⟩

/-- Witness for C8: inserting a second photo with the already-present
filename of the sample store fails and leaves one row with it. -/
theorem filename_unique_invariant_witness :
    (insertPhoto sampleStore (mkPhoto 99 "tr-istanbul-1.jpg" "nature" "x"
        "y" "z" none none none none)).1 = some DbError.constraintViolation ∧
      (insertPhoto sampleStore (mkPhoto 99 "tr-istanbul-1.jpg" "nature" "x"
        "y" "z" none none none none)).2 = sampleStore ∧
      (insertPhoto sampleStore (mkPhoto 99 "tr-istanbul-1.jpg" "nature" "x"
        "y" "z" none none none none)).2.countP
        (fun q => q.filename == (mkPhoto 99 "tr-istanbul-1.jpg" "nature" "x"
          "y" "z" none none none none).filename) = 1 ∧
      (∀ st q, filenamesDistinct st →
        filenamesDistinct (insertPhoto st q).2) ∧
      (∀ fe rows dryRun now st, filenamesDistinct st →
        filenamesDistinct (importPhotos fe rows dryRun now st).2) ∧
      ∀ fe avail rows dryRun now st, filenamesDistinct st →
        filenamesDistinct (updatePhotos fe avail rows dryRun now st).2 :=
  filename_unique_invariant sampleStore
    (mkPhoto 99 "tr-istanbul-1.jpg" "nature" "x" "y" "z" none none none none)
    (by unfold filenamesDistinct; decide) (by decide)

theorem zip_map_self (f : α → α) : ∀ l : List α,
    l.zip (l.map f) = l.map fun a => (a, f a)
  | [] => rfl
  | x :: xs => by
    rw [List.map_cons, List.zip_cons_cons, zip_map_self f xs, List.map_cons]

/-- C7: a successful single-input batch update that supplies an identifier
plus at least one writable field touches exactly the matching rows: every
supplied field takes its new value, every field not supplied (including
`id`, `filename`, `date`, `sub_category`, `created_at`, which the update
tool never writes) keeps its pre-call value, `updated_at` is refreshed to
the transaction timestamp, and non-matching rows are untouched. -/
theorem updatePhotos_partial_update_spec (fe : String → String → Bool)
    (avail : List String) (r : URow) (now : String) (store : List Photo)
    (hsucc : (updatePhotos fe avail [r] false now store).1 = none)
    (hop : opHasFields (buildOp avail r) = true) :
    (updatePhotos fe avail [r] false now store).2.length = store.length ∧
      ∀ pq ∈ store.zip (updatePhotos fe avail [r] false now store).2,
        (rowMatches r pq.1 = false → pq.2 = pq.1) ∧
        (rowMatches r pq.1 = true →
          pq.2.id = pq.1.id ∧ pq.2.filename = pq.1.filename ∧
          pq.2.date = pq.1.date ∧ pq.2.sub_category = pq.1.sub_category ∧
          pq.2.created_at = pq.1.created_at ∧ pq.2.updated_at = now ∧
          (∀ v, (buildOp avail r).category = some v → pq.2.category = v) ∧
          ((buildOp avail r).category = none →
            pq.2.category = pq.1.category) ∧
          (∀ v, (buildOp avail r).caption = some v → pq.2.caption = v) ∧
          ((buildOp avail r).caption = none → pq.2.caption = pq.1.caption) ∧
          (∀ v, (buildOp avail r).location = some v → pq.2.location = v) ∧
          ((buildOp avail r).location = none →
            pq.2.location = pq.1.location) ∧
          (∀ v, (buildOp avail r).country = some v → pq.2.country = v) ∧
          ((buildOp avail r).country = none →
            pq.2.country = pq.1.country) ∧
          (∀ v, (buildOp avail r).homepage_featured = some v →
            pq.2.homepage_featured = v) ∧
          ((buildOp avail r).homepage_featured = none →
            pq.2.homepage_featured = pq.1.homepage_featured) ∧
          (∀ v, (buildOp avail r).category_featured = some v →
            pq.2.category_featured = v) ∧
          ((buildOp avail r).category_featured = none →
            pq.2.category_featured = pq.1.category_featured) ∧
          (∀ v, (buildOp avail r).country_featured = some v →
            pq.2.country_featured = v) ∧
          ((buildOp avail r).country_featured = none →
            pq.2.country_featured = pq.1.country_featured)) := by
  by_cases hv : validateURow fe avail r 0 = []
  · by_cases he : checkPhotosExist store [(0, r)] = []
    · have heq : updatePhotos fe avail [r] false now store =
          (none, store.map fun p =>
            if rowMatches r p then applyOp now (buildOp avail r) p else p) := by
        rw [updatePhotos]
        rw [show ([r] : List URow).enum = [(0, r)] from rfl]
        simp [hv, he, applyRowUpdate, hop]
      rw [heq]
      refine ⟨List.length_map _ _, ?_⟩
      intro pq hpq
      have hz : store.zip (store.map fun p =>
          if rowMatches r p then applyOp now (buildOp avail r) p else p) =
          store.map fun p => (p,
            if rowMatches r p then applyOp now (buildOp avail r) p else p) :=
        zip_map_self _ store
      rw [hz] at hpq
      obtain ⟨p, hp, rfl⟩ := List.mem_map.mp hpq
      constructor
      · intro hm
        simp [hm]
      · intro hm
        simp only [if_pos hm]
        refine ⟨rfl, rfl, rfl, rfl, rfl, rfl, ?_, ?_, ?_, ?_, ?_, ?_, ?_,
          ?_, ?_, ?_, ?_, ?_, ?_, ?_⟩
        all_goals
          first
          | (intro v hv'
             simp [applyOp, hv'])
          | (intro hv'
             simp [applyOp, hv'])
    · exfalso
      have heq : updatePhotos fe avail [r] false now store =
          (some (checkPhotosExist store [(0, r)]), store) := by
        rw [updatePhotos]
        rw [show ([r] : List URow).enum = [(0, r)] from rfl]
        simp [hv, isEmpty_false_of_ne_nil he]
      rw [heq] at hsucc
      exact absurd hsucc (by simp)
  · exfalso
    have heq : updatePhotos fe avail [r] false now store =
        (some (validateURow fe avail r 0), store) := by
      rw [updatePhotos]
      rw [show ([r] : List URow).enum = [(0, r)] from rfl]
      simp [isEmpty_false_of_ne_nil hv]
    rw [heq] at hsucc
    exact absurd hsucc (by simp)

/-- Witness for C7: updating only the caption of the Istanbul row of the
sample store by filename. -/
theorem updatePhotos_partial_update_spec_witness :
    (updatePhotos (fun _ _ => true) ["caption"]
        [⟨none, some "tr-istanbul-1.jpg", none, some "New caption", none,
          none, none, none, none⟩] false "2024-05-05" sampleStore).2.length =
      sampleStore.length ∧
      ∀ pq ∈ sampleStore.zip (updatePhotos (fun _ _ => true) ["caption"]
          [⟨none, some "tr-istanbul-1.jpg", none, some "New caption", none,
            none, none, none, none⟩] false "2024-05-05" sampleStore).2,
        (rowMatches ⟨none, some "tr-istanbul-1.jpg", none, some "New caption",
            none, none, none, none, none⟩ pq.1 = false → pq.2 = pq.1) ∧
        (rowMatches ⟨none, some "tr-istanbul-1.jpg", none, some "New caption",
            none, none, none, none, none⟩ pq.1 = true →
          pq.2.id = pq.1.id ∧ pq.2.filename = pq.1.filename ∧
          pq.2.date = pq.1.date ∧ pq.2.sub_category = pq.1.sub_category ∧
          pq.2.created_at = pq.1.created_at ∧
          pq.2.updated_at = "2024-05-05" ∧
          (∀ v, (buildOp ["caption"] ⟨none, some "tr-istanbul-1.jpg", none,
              some "New caption", none, none, none, none, none⟩).category =
              some v → pq.2.category = v) ∧
          ((buildOp ["caption"] ⟨none, some "tr-istanbul-1.jpg", none,
              some "New caption", none, none, none, none, none⟩).category =
              none → pq.2.category = pq.1.category) ∧
          (∀ v, (buildOp ["caption"] ⟨none, some "tr-istanbul-1.jpg", none,
              some "New caption", none, none, none, none, none⟩).caption =
              some v → pq.2.caption = v) ∧
          ((buildOp ["caption"] ⟨none, some "tr-istanbul-1.jpg", none,
              some "New caption", none, none, none, none, none⟩).caption =
              none → pq.2.caption = pq.1.caption) ∧
          (∀ v, (buildOp ["caption"] ⟨none, some "tr-istanbul-1.jpg", none,
              some "New caption", none, none, none, none, none⟩).location =
              some v → pq.2.location = v) ∧
          ((buildOp ["caption"] ⟨none, some "tr-istanbul-1.jpg", none,
              some "New caption", none, none, none, none, none⟩).location =
              none → pq.2.location = pq.1.location) ∧
          (∀ v, (buildOp ["caption"] ⟨none, some "tr-istanbul-1.jpg", none,
              some "New caption", none, none, none, none, none⟩).country =
              some v → pq.2.country = v) ∧
          ((buildOp ["caption"] ⟨none, some "tr-istanbul-1.jpg", none,
              some "New caption", none, none, none, none, none⟩).country =
              none → pq.2.country = pq.1.country) ∧
          (∀ v, (buildOp ["caption"] ⟨none, some "tr-istanbul-1.jpg", none,
              some "New caption", none, none, none, none,
              none⟩).homepage_featured = some v →
            pq.2.homepage_featured = v) ∧
          ((buildOp ["caption"] ⟨none, some "tr-istanbul-1.jpg", none,
              some "New caption", none, none, none, none,
              none⟩).homepage_featured = none →
            pq.2.homepage_featured = pq.1.homepage_featured) ∧
          (∀ v, (buildOp ["caption"] ⟨none, some "tr-istanbul-1.jpg", none,
              some "New caption", none, none, none, none,
              none⟩).category_featured = some v →
            pq.2.category_featured = v) ∧
          ((buildOp ["caption"] ⟨none, some "tr-istanbul-1.jpg", none,
              some "New caption", none, none, none, none,
              none⟩).category_featured = none →
            pq.2.category_featured = pq.1.category_featured) ∧
          (∀ v, (buildOp ["caption"] ⟨none, some "tr-istanbul-1.jpg", none,
              some "New caption", none, none, none, none,
              none⟩).country_featured = some v →
            pq.2.country_featured = v) ∧
          ((buildOp ["caption"] ⟨none, some "tr-istanbul-1.jpg", none,
              some "New caption", none, none, none, none,
              none⟩).country_featured = none →
            pq.2.country_featured = pq.1.country_featured)) :=
  updatePhotos_partial_update_spec (fun _ _ => true) ["caption"]
    ⟨none, some "tr-istanbul-1.jpg", none, some "New caption", none, none,
      none, none, none⟩ "2024-05-05" sampleStore (by decide) (by decide)
